import Mathlib

/-!
Verification development for the volleyball prediction game web application.

The definitions below are a shallow embedding of the application's data model
and operations (`app.py`, `result_fetcher.py`).  Database tables become lists
of row structures, handlers become pure functions from the relevant rows and
request parameters to an outcome together with the new rows, and the scoring
engine becomes pure functions on rows.  Naive civil timestamps (interpreted as
Europe/Riga local time throughout the application) are embedded as the number
of minutes since 0001-01-01 00:00: Python `datetime` comparison and `timedelta`
arithmetic coincide with `Nat` comparison and arithmetic on this encoding, and
`to_riga_time` is the identity on naive timestamps, so "current Riga time" is
simply a `Nat` parameter.
-/

namespace VPG

/-- Python truthiness for a nullable string column (`None` and `""` are falsy). -/
def optStrTruthy : Option String → Bool
  | none => false
  | some s => !s.isEmpty

/-- A row of the `Prediction` table.  The surrogate primary key and
`created_at` are database bookkeeping not read by any of the operations
embedded here and are omitted. -/
structure PredRow where
  user_id : Nat
  game_id : Nat
  team1_score : Option Int
  team2_score : Option Int
  predicted_winner : Option String
  points : Option Int
  deriving Repr, DecidableEq

/-- A row of the `Game` table. -/
structure GameRow where
  id : Nat
  team1 : String
  team2 : String
  game_date : Nat
  prediction_deadline : Nat
  round_name : String
  team1_score : Option Int
  team2_score : Option Int
  is_finished : Bool
  auto_update_attempted : Bool
  auto_update_timestamp : Option Nat
  result_source : String
  serpapi_search_used : Bool
  deriving Repr, DecidableEq

/-- `Prediction.is_default_prediction`: a placeholder row synthesized by the
recalculation engine (no scores, no predicted winner). -/
def PredRow.is_default_prediction (p : PredRow) : Bool :=
  p.team1_score.isNone && p.team2_score.isNone && p.predicted_winner.isNone

/-- `calculate_points` (app.py): match-prediction scoring.  Returns `none`
("no points yet") when the game is not finished or either predicted score is
missing.  The final catch-all arm is unreachable in the application: a
finished game always carries both actual scores (the volleyball-shape
invariant is enforced at every write path that sets a result); Python would
raise a `TypeError` comparing `None` there. -/
def calculate_points (prediction : PredRow) (game : GameRow) : Option Int :=
  if !game.is_finished || prediction.team1_score.isNone || prediction.team2_score.isNone then
    none
  else
    match prediction.team1_score, prediction.team2_score, game.team1_score, game.team2_score with
    | some p1, some p2, some a1, some a2 =>
      let winner_correct : Bool := decide (p1 > p2) == decide (a1 > a2)
      let exact_score : Bool := p1 == a1 && p2 == a2
      let total_sets_correct : Bool := (p1 + p2) == (a1 + a2)
      let score_diff : Int := |(p1 - p2) - (a1 - a2)|
      let missed_by_one : Bool := score_diff == 1
      if exact_score then some 6
      else if winner_correct && missed_by_one then some 4
      else if winner_correct then some 2
      else if total_sets_correct then some 1
      else some 0
    | _, _, _, _ => none

/-- The match-scoring rule exactly as the specification words it, for the
refinement theorem: 6 for the exact score; else 4 for the correct winner
missed by one set; else 2 for the correct winner alone; else 1 for the correct
total number of sets; else 0. -/
def specMatchPoints (p1 p2 a1 a2 : Int) : Int :=
  if p1 = a1 ∧ p2 = a2 then 6
  else if (p1 > p2 ↔ a1 > a2) ∧ |(p1 - p2) - (a1 - a2)| = 1 then 4
  else if (p1 > p2 ↔ a1 > a2) then 2
  else if p1 + p2 = a1 + a2 then 1
  else 0

/-- A row of the `TournamentPrediction` table (podium prediction). -/
structure TournamentPredictionRow where
  user_id : Nat
  first_place : Option String
  second_place : Option String
  third_place : Option String
  points_earned : Int
  deriving Repr, DecidableEq

/-- The singleton `TournamentConfig` row. -/
structure TournamentConfigRow where
  prediction_deadline : Nat
  first_place_result : Option String
  second_place_result : Option String
  third_place_result : Option String
  is_finalized : Bool
  deriving Repr, DecidableEq

/-- `TournamentConfig.are_results_available`: finalized and all three result
slots truthy (Python `all([...])` treats `None` and `""` as missing). -/
def TournamentConfigRow.are_results_available (c : TournamentConfigRow) : Bool :=
  c.is_finalized && optStrTruthy c.first_place_result &&
    optStrTruthy c.second_place_result && optStrTruthy c.third_place_result

/-- `calculate_tournament_points` (app.py): podium scoring.  15 points per
actual-result slot whose team appears anywhere among the player's three picks,
plus an exact-slot bonus of 15 / 5 / 5 for 1st / 2nd / 3rd place. -/
def calculate_tournament_points (prediction : TournamentPredictionRow)
    (tournament_config : TournamentConfigRow) : Int :=
  if !tournament_config.are_results_available then 0
  else
    let user_predictions : List (Option String) :=
      [prediction.first_place, prediction.second_place, prediction.third_place]
    let points : Int := 0
    let points :=
      if user_predictions.contains tournament_config.first_place_result then
        if prediction.first_place == tournament_config.first_place_result then
          points + 15 + 15
        else points + 15
      else points
    let points :=
      if user_predictions.contains tournament_config.second_place_result then
        if prediction.second_place == tournament_config.second_place_result then
          points + 15 + 5
        else points + 15
      else points
    let points :=
      if user_predictions.contains tournament_config.third_place_result then
        if prediction.third_place == tournament_config.third_place_result then
          points + 15 + 5
        else points + 15
      else points
    points

/-- The tournament-podium scoring rule as the specification words it: for each
actual-result slot, 15 points when the actual team appears anywhere among the
player's picks, plus an exact-slot bonus (+15 first, +5 second, +5 third). -/
def specTournamentPoints (prediction : TournamentPredictionRow)
    (c : TournamentConfigRow) : Int :=
  let picks := [prediction.first_place, prediction.second_place, prediction.third_place]
  let slot (actual pick : Option String) (bonus : Int) : Int :=
    (if actual ∈ picks then 15 else 0) + (if pick = actual then bonus else 0)
  slot c.first_place_result prediction.first_place 15 +
    slot c.second_place_result prediction.second_place 5 +
    slot c.third_place_result prediction.third_place 5

/-- `_is_valid_volleyball_score` (result_fetcher.py; the leading underscore of
the Python method name is dropped): the winner must have exactly 3 sets and
the loser 0, 1 or 2.  The identical expression is inlined at every
result/prediction write path in app.py. -/
def is_valid_volleyball_score (score1 score2 : Int) : Bool :=
  (score1 == 3 && ([0, 1, 2] : List Int).contains score2) ||
    (score2 == 3 && ([0, 1, 2] : List Int).contains score1)

/-- `Game.query.get(game_id)` / `Game.query.filter_by(id=...)`: primary-key
lookup, the first row with the given id. -/
def findGame (games : List GameRow) (game_id : Nat) : Option GameRow :=
  games.find? (fun g => g.id == game_id)

/-- `Prediction.query.filter_by(user_id=..., game_id=...).first()`. -/
def findPrediction (preds : List PredRow) (user_id game_id : Nat) : Option PredRow :=
  preds.find? (fun p => p.user_id == user_id && p.game_id == game_id)

/-- SQLAlchemy mutates the single row object returned by `.first()`; on the
list of rows this is an update of the first matching row. -/
def updateFirstPred (user_id game_id : Nat) (f : PredRow → PredRow) :
    List PredRow → List PredRow
  | [] => []
  | p :: ps =>
    if p.user_id == user_id && p.game_id == game_id then f p :: ps
    else p :: updateFirstPred user_id game_id f ps

/-- Update of the single `Game` row returned by `Game.query.get`. -/
def updateFirstGame (game_id : Nat) (f : GameRow → GameRow) :
    List GameRow → List GameRow
  | [] => []
  | g :: gs =>
    if g.id == game_id then f g :: gs
    else g :: updateFirstGame game_id f gs

/-- Outcome of the `make_prediction` form handler (flash message + redirect in
the application). -/
inductive MPOutcome where
  | invalidValues
  | invalidScore
  | gameNotFound
  | deadlinePassed
  | saved
  deriving Repr, DecidableEq

/-- `make_prediction` (app.py): the form endpoint for submitting a match
prediction.  Modelled from the point where the form fields have been converted
to integers (`int(...)`); an empty/missing field or a non-numeric string is
rejected before that point with the rows equally unchanged.  `now` is
`get_riga_time()`; `to_riga_time` of the stored naive deadline is the
identity. -/
def make_prediction (preds : List PredRow) (games : List GameRow)
    (current_user_id game_id : Nat) (team1_score team2_score : Int) (now : Nat) :
    MPOutcome × List PredRow :=
  if team1_score < 0 || team2_score < 0 then (.invalidValues, preds)
  else if !((team1_score == 3 && ([0, 1, 2] : List Int).contains team2_score) ||
      (team2_score == 3 && ([0, 1, 2] : List Int).contains team1_score)) then
    (.invalidScore, preds)
  else
    match findGame games game_id with
    | none => (.gameNotFound, preds)
    | some game =>
      if now ≥ game.prediction_deadline then (.deadlinePassed, preds)
      else
        match findPrediction preds current_user_id game_id with
        | some _ =>
          (.saved, updateFirstPred current_user_id game_id (fun existing =>
            { existing with
              team1_score := some team1_score
              team2_score := some team2_score
              predicted_winner :=
                some (if team1_score > team2_score then game.team1 else game.team2) }) preds)
        | none =>
          (.saved, preds ++ [{
              user_id := current_user_id
              game_id := game_id
              team1_score := some team1_score
              team2_score := some team2_score
              predicted_winner :=
                some (if team1_score > team2_score then game.team1 else game.team2)
              points := none }])

/-- Outcome of the `save_prediction_ajax` JSON endpoint (HTTP status + JSON
body in the application). -/
inductive AjaxOutcome where
  | missingFields
  | invalidValues
  | invalidScore
  | gameNotFound
  | deadlinePassed
  | saved (is_update : Bool)
  deriving Repr, DecidableEq

/-- `save_prediction_ajax` (app.py): the AJAX endpoint for submitting a match
prediction.  `not all([game_id, ...])` makes a falsy (zero) game id a
validation failure; the two score fields are only checked against `None` there
and are modelled after integer conversion. -/
def save_prediction_ajax (preds : List PredRow) (games : List GameRow)
    (current_user_id game_id : Nat) (team1_score team2_score : Int) (now : Nat) :
    AjaxOutcome × List PredRow :=
  if game_id == 0 then (.missingFields, preds)
  else if team1_score < 0 || team2_score < 0 then (.invalidValues, preds)
  else if !((team1_score == 3 && ([0, 1, 2] : List Int).contains team2_score) ||
      (team2_score == 3 && ([0, 1, 2] : List Int).contains team1_score)) then
    (.invalidScore, preds)
  else
    match findGame games game_id with
    | none => (.gameNotFound, preds)
    | some game =>
      if now ≥ game.prediction_deadline then (.deadlinePassed, preds)
      else
        match findPrediction preds current_user_id game_id with
        | some _ =>
          (.saved true, updateFirstPred current_user_id game_id (fun existing =>
            { existing with
              team1_score := some team1_score
              team2_score := some team2_score
              predicted_winner :=
                some (if team1_score > team2_score then game.team1 else game.team2) }) preds)
        | none =>
          (.saved false, preds ++ [{
              user_id := current_user_id
              game_id := game_id
              team1_score := some team1_score
              team2_score := some team2_score
              predicted_winner :=
                some (if team1_score > team2_score then game.team1 else game.team2)
              points := none }])

/-- Outcome of the `update_result` admin handler. -/
inductive UROutcome where
  | invalidValues
  | invalidScore
  | gameNotFound
  | updated
  deriving Repr, DecidableEq

/-- `update_result` (app.py): admin manual result entry.  Validates the
volleyball shape, writes the two scores and the finished flag on the game, and
recomputes `points` for every prediction of that game against the updated
game.  Modelled from the point where the form fields have been converted to
integers. -/
def update_result (games : List GameRow) (preds : List PredRow)
    (game_id : Nat) (team1_score team2_score : Int) :
    UROutcome × List GameRow × List PredRow :=
  if team1_score < 0 || team2_score < 0 then (.invalidValues, games, preds)
  else if !((team1_score == 3 && ([0, 1, 2] : List Int).contains team2_score) ||
      (team2_score == 3 && ([0, 1, 2] : List Int).contains team1_score)) then
    (.invalidScore, games, preds)
  else
    match findGame games game_id with
    | none => (.gameNotFound, games, preds)
    | some game =>
      let game' := { game with
        team1_score := some team1_score
        team2_score := some team2_score
        is_finished := true }
      let games' := updateFirstGame game_id (fun _ => game') games
      let preds' := preds.map (fun p =>
        if p.game_id == game_id then { p with points := calculate_points p game' } else p)
      (.updated, games', preds')

/-! ## Default-points recalculation engine (`recalculate_all_points_with_defaults`) -/

/-- The database state the recalculation engine reads and writes: the user ids
(`User.query.all()` order), the `Game` rows and the `Prediction` rows. -/
structure DBState where
  users : List Nat
  games : List GameRow
  predictions : List PredRow
  deriving Repr, DecidableEq

/-- `Prediction.query.filter_by(game_id=game.id).all()`. -/
def gamePreds (g : GameRow) (preds : List PredRow) : List PredRow :=
  preds.filter (fun p => p.game_id == g.id)

/-- The recomputed points of the game's real (non-placeholder) predictions, in
row order, skipping `None` results — the engine's `real_points` list before
sorting.  (The engine stores each recomputed value into the row and collects
it at the same time; the collected values depend only on the rows' score
fields, not on their previous `points`.) -/
def realPoints (g : GameRow) (preds : List PredRow) : List Int :=
  ((gamePreds g preds).filter (fun p => !p.is_default_prediction)).filterMap
    (fun p => calculate_points p g)

/-- The engine's `default_points` selection: sort the real points ascending;
take the value at position `n_position - 1` when at least `n_position` values
exist, else the single worst value, else 0.  The admin route rejects
`n_position < 1` before the engine ever runs, so the `n_position = 1` lower
bound is a precondition here (Python's negative indexing is not modelled). -/
def default_points_of (n_position : Nat) (g : GameRow) (preds : List PredRow) : Int :=
  let sorted := (realPoints g preds).insertionSort (fun a b => a ≤ b)
  if n_position ≤ sorted.length then sorted.getD (n_position - 1) 0
  else if 0 < sorted.length then sorted.getD 0 0
  else 0

/-- The `points` value the engine writes into a prediction row of the game:
the recomputed score for a real prediction, the game's default for a
placeholder. -/
def writeVal (g : GameRow) (default_points : Int) (p : PredRow) : Option Int :=
  if p.is_default_prediction then some default_points else calculate_points p g

/-- The placeholder prediction row the engine creates for a non-predictor:
null scores, null winner, `points := default_points`. -/
def defaultRow (u : Nat) (g : GameRow) (default_points : Int) : PredRow :=
  { user_id := u, game_id := g.id, team1_score := none, team2_score := none,
    predicted_winner := none, points := some default_points }

/-- One iteration of the engine's per-game loop: recompute every real
prediction of the game, write the default into every placeholder, and append a
new placeholder (`defaultRow`) for every user with no row at all for this
game.  Returns the new prediction rows, the number of placeholder rows created
and the number of `points` values that changed. -/
def processGame (all_users : List Nat) (n_position : Nat) (g : GameRow)
    (preds : List PredRow) : List PredRow × Nat × Nat :=
  let default_points := default_points_of n_position g preds
  let points_updated := ((gamePreds g preds).filter
    (fun p => p.points != writeVal g default_points p)).length
  let updated := preds.map (fun p =>
    if p.game_id == g.id then { p with points := writeVal g default_points p } else p)
  let existing_user_ids := (gamePreds g preds).map (fun p => p.user_id)
  let non_predictors := all_users.filter (fun u => !existing_user_ids.contains u)
  let created := non_predictors.map (fun u => defaultRow u g default_points)
  (updated ++ created, created.length, points_updated)

/-- The engine's main loop over all finished games, threading the prediction
rows and accumulating the created / updated counters. -/
def runRecalc (all_users : List Nat) (n_position : Nat) :
    List GameRow → List PredRow → List PredRow × Nat × Nat
  | [], preds => (preds, 0, 0)
  | g :: gs, preds =>
    let r := processGame all_users n_position g preds
    let rest := runRecalc all_users n_position gs r.1
    (rest.1, r.2.1 + rest.2.1, r.2.2 + rest.2.2)

/-- The finished games the engine processes:
`Game.query.filter(is_finished, team1_score != None, team2_score != None)`. -/
def finishedGames (st : DBState) : List GameRow :=
  st.games.filter (fun g => g.is_finished && g.team1_score.isSome && g.team2_score.isSome)

/-- Invariant used by the idempotence proof: game `g` is settled in `preds`
when every prediction row of the game already carries exactly the points one
engine iteration would write, and every registered user already has a row for
the game. -/
def Settled (all_users : List Nat) (n_position : Nat) (g : GameRow)
    (preds : List PredRow) : Prop :=
  (∀ p ∈ preds, p.game_id = g.id →
    p.points = writeVal g (default_points_of n_position g preds) p) ∧
  ∀ u ∈ all_users, u ∈ (gamePreds g preds).map (fun p => p.user_id)

/-- The structured summary of a successful recalculation run. -/
structure RecalcDetails where
  games_processed : Nat
  predictions_created : Nat
  points_updated : Nat
  n_position : Nat
  deriving Repr, DecidableEq

/-- The engine's `{success: bool, ...}` return value. -/
inductive RecalcResult where
  | failure (error : String)
  | success (details : RecalcDetails)
  deriving Repr, DecidableEq

/-- Placeholder rows created by a recalculation run (0 on failure). -/
def RecalcResult.createdCount : RecalcResult → Nat
  | .failure _ => 0
  | .success d => d.predictions_created

/-- `recalculate_all_points_with_defaults` (app.py): the batch job.  Fails
without touching anything when there is no finished game or no user; otherwise
processes every finished game and commits once at the end.  (The embedding is
pure, so the exception/rollback arm of the Python function has no
counterpart.) -/
def recalculate_all_points_with_defaults (st : DBState) (n_position : Nat) :
    RecalcResult × DBState :=
  let finished_games := finishedGames st
  if finished_games.isEmpty then (.failure "No finished games found", st)
  else if st.users.isEmpty then (.failure "No users found", st)
  else
    let r := runRecalc st.users n_position finished_games st.predictions
    (.success {
        games_processed := finished_games.length
        predictions_created := r.2.1
        points_updated := r.2.2
        n_position := n_position },
      { st with predictions := r.1 })

/-! ## What-if scenario analyzer (`potential_points`) -/

/-- A user snapshot taken by `potential_points`: the id and the current total
score (`user.get_total_score()`). -/
structure UserSnapshot where
  id : Nat
  current_total : Int
  deriving Repr, DecidableEq

/-- The `user_data[...].prediction` assignment loop: each prediction row for
the target game is assigned to its user's slot, later rows overwriting earlier
ones, rows of unknown users ignored. -/
def userPrediction (preds : List PredRow) (user_id : Nat) : Option PredRow :=
  preds.foldl (fun acc p => if p.user_id == user_id then some p else acc) none

/-- The in-memory mock finished game built for one simulated outcome; only the
fields set by `potential_points` are populated (the date fields of the bare
`Game()` are unset and unread by `calculate_points`). -/
def mockGame (team1 team2 : String) (team1_score team2_score : Int) : GameRow :=
  { id := 0, team1 := team1, team2 := team2, game_date := 0, prediction_deadline := 0,
    round_name := "", team1_score := some team1_score, team2_score := some team2_score,
    is_finished := true, auto_update_attempted := false, auto_update_timestamp := none,
    result_source := "manual", serpapi_search_used := false }

/-- The six legal volleyball outcomes `potential_points` simulates, with their
display labels. -/
def possible_outcomes (target : GameRow) : List (Int × Int × String) :=
  [(3, 0, target.team1 ++ " 3-0"), (3, 1, target.team1 ++ " 3-1"),
   (3, 2, target.team1 ++ " 3-2"), (2, 3, target.team2 ++ " 3-2"),
   (1, 3, target.team2 ++ " 3-1"), (0, 3, target.team2 ++ " 3-0")]

/-- The points one user earns in a simulated outcome: their prediction scored
against the mock game when they have one with both scores, else 0 (a `None`
from the scoring engine also counts 0). -/
def points_earned (preds : List PredRow) (user_id : Nat) (mock : GameRow) : Int :=
  match userPrediction preds user_id with
  | some p =>
    if p.team1_score.isSome && p.team2_score.isSome then
      (calculate_points p mock).getD 0
    else 0
  | none => 0

/-- One scenario row of `potential_points`: per user, the points earned under
the simulated outcome and the hypothetical new total. -/
def scenarioUserResults (users : List UserSnapshot) (preds : List PredRow)
    (mock : GameRow) : List (UserSnapshot × Int × Int) :=
  users.map (fun u =>
    let pe := points_earned preds u.id mock
    (u, pe, u.current_total + pe))

/-! ## Fixtures CSV import (`upload_games`)

The importer calls `datetime.strptime` with the formats `"%Y-%m-%d %H:%M"` and
`"%Y-%m-%d,%H:%M"`.  CPython compiles these to the regexes
`%Y ↦ \d\d\d\d`, `%m ↦ 1[0-2]|0[1-9]|[1-9]`, `%d ↦ 3[01]|[12]\d|0[1-9]|[1-9]`,
`%H ↦ 2[0-3]|[0-1]\d|\d`, `%M ↦ [0-5]\d|\d`, anchored on both sides, and then
validates the day against the month length.  Every numeric field here is
followed by a non-digit literal (or the end of the string), so the regex
engine's backtracking never helps: when two digits follow, the two-digit
alternative is forced (the one-digit alternative would leave a digit where the
literal must match), and the embedding below can parse greedily. -/

/-- Numeric value of a decimal digit character. -/
def digitVal (c : Char) : Nat := c.toNat - 48

/-- `%Y`: exactly four decimal digits. -/
def pNum4 : List Char → Option (Nat × List Char)
  | c1 :: c2 :: c3 :: c4 :: rest =>
    if c1.isDigit && c2.isDigit && c3.isDigit && c4.isDigit then
      some (((digitVal c1 * 10 + digitVal c2) * 10 + digitVal c3) * 10 + digitVal c4, rest)
    else none
  | _ => none

/-- A one-or-two-digit field: two digits are consumed when two digits are
present (see the header comment), and the value is checked against the
alternative actually matched (`ok2` for the two-digit alternatives, `ok1` for
the one-digit alternative). -/
def pNum2or1 (ok2 ok1 : Nat → Bool) : List Char → Option (Nat × List Char)
  | c1 :: c2 :: rest =>
    if c1.isDigit && c2.isDigit then
      let v := digitVal c1 * 10 + digitVal c2
      if ok2 v then some (v, rest) else none
    else if c1.isDigit then
      let v := digitVal c1
      if ok1 v then some (v, c2 :: rest) else none
    else none
  | [c1] =>
    if c1.isDigit then
      let v := digitVal c1
      if ok1 v then some (v, []) else none
    else none
  | [] => none

/-- A literal character of the format string. -/
def pLit (c : Char) : List Char → Option (List Char)
  | x :: rest => if x == c then some rest else none
  | [] => none

/-- The space character (the separator of the `"%Y-%m-%d %H:%M"` format). -/
def spaceSep : Char := Char.ofNat 32

/-- Gregorian leap year, as `calendar`/`datetime` define it. -/
def isLeapYear (y : Nat) : Bool :=
  y % 4 == 0 && (y % 100 != 0 || y % 400 == 0)

/-- Days in a month of a given year. -/
def daysInMonth (y m : Nat) : Nat :=
  if m == 2 then (if isLeapYear y then 29 else 28)
  else if ([4, 6, 9, 11] : List Nat).contains m then 30
  else 31

/-- Days from 0001-01-01 to the first day of year `y`. -/
def daysBeforeYear (y : Nat) : Nat :=
  365 * (y - 1) + (y - 1) / 4 - (y - 1) / 100 + (y - 1) / 400

/-- Days from the first of January to the first day of month `m` in year `y`. -/
def daysBeforeMonth (y m : Nat) : Nat :=
  ((List.range (m - 1)).map (fun i => daysInMonth y (i + 1))).sum

/-- A civil timestamp as minutes since 0001-01-01 00:00 (the proleptic
Gregorian ordinal `datetime` uses, in minutes); `datetime` comparison and
`timedelta` arithmetic agree with `Nat` arithmetic on this encoding. -/
def civilToMinutes (y m d hh mm : Nat) : Nat :=
  ((daysBeforeYear y + daysBeforeMonth y m + (d - 1)) * 24 + hh) * 60 + mm

/-- `datetime.strptime(s, "%Y-%m-%d" ++ sep ++ "%H:%M")` for the two
separators the importer uses (space and comma): `none` is Python's
`ValueError`.  The trailing `isEmpty` check is strptime's "unconverted data
remains" error; the day/month/year checks are the `datetime` constructor's
range validation (`MINYEAR = 1`; four digits bound the year by 9999). -/
def strptimeYmdHM (sep : Char) (s : String) : Option Nat := do
  let (y, r1) ← pNum4 s.data
  let r2 ← pLit '-' r1
  let (m, r3) ← pNum2or1 (fun v => 1 ≤ v && v ≤ 12) (fun v => 1 ≤ v) r2
  let r4 ← pLit '-' r3
  let (d, r5) ← pNum2or1 (fun v => 1 ≤ v && v ≤ 31) (fun v => 1 ≤ v) r4
  let r6 ← pLit sep r5
  let (hh, r7) ← pNum2or1 (fun v => v ≤ 23) (fun _ => true) r6
  let r8 ← pLit ':' r7
  let (mm, r9) ← pNum2or1 (fun v => v ≤ 59) (fun _ => true) r8
  if r9.isEmpty ∧ 1 ≤ y ∧ d ≤ daysInMonth y m then
    some (civilToMinutes y m d hh mm)
  else none

/-- One row produced by `csv.DictReader` for the fixtures CSV.  `none` means
the column is absent from the CSV header, so that the Python `row[...]` access
raises `KeyError`; a field `DictReader` fills with `None` because the data row
is short behaves like an unparseable string and is not distinguished from
one. -/
structure CsvRow where
  team1 : Option String
  team2 : Option String
  date : Option String
  time : Option String
  round : Option String
  prediction_deadline : Option String
  deriving Repr, DecidableEq

/-- Result of the importer's date/time parsing for one row. -/
inductive RowDateResult where
  | keyError
  | parseError
  | ok (t : Nat)
  deriving Repr, DecidableEq

/-- The importer's per-row date/time parsing: `"date time"` (or the combined
`date` column alone when `time` is absent or empty) as `%Y-%m-%d %H:%M`; on
`ValueError`, the comma-joined `"date,time"` as `%Y-%m-%d,%H:%M`.  The
fallback reads `row['time']` unconditionally, so a row without a `time` key
whose first parse failed raises `KeyError` — which the row loop does not
catch. -/
def parseRowDate (row : CsvRow) : RowDateResult :=
  match row.date with
  | none => .keyError
  | some d =>
    let firstAttempt : Option Nat :=
      match row.time with
      | some t =>
        if !t.isEmpty then strptimeYmdHM spaceSep (d ++ " " ++ t)
        else strptimeYmdHM spaceSep d
      | none => strptimeYmdHM spaceSep d
    match firstAttempt with
    | some v => .ok v
    | none =>
      match row.time with
      | none => .keyError
      | some t =>
        match strptimeYmdHM ',' (d ++ "," ++ t) with
        | some v => .ok v
        | none => .parseError

/-- The importer's prediction-deadline parsing: the `prediction_deadline`
column in either format when present and non-empty, else (including on a parse
failure, which only flashes a warning) 30 minutes before the game time. -/
def parseDeadline (row : CsvRow) (game_date : Nat) : Nat :=
  match row.prediction_deadline with
  | some s =>
    if !s.isEmpty then
      match strptimeYmdHM spaceSep s with
      | some v => v
      | none =>
        match strptimeYmdHM ',' s with
        | some v => v
        | none => game_date - 30
    else game_date - 30
  | none => game_date - 30

/-- What processing one CSV row does to the import. -/
inductive RowOutcome where
  | keyError
  | skipped
  | duplicate
  | add (g : GameRow)
  deriving Repr, DecidableEq

/-- Processing of one fixtures row: parse the date/time (skip the row on a
parse failure, abort on `KeyError`), parse the deadline, skip the row if a
game with the same `(team1, team2, game_date)` is already visible to the
session, else build the new `Game` row (its database-assigned id is not part
of the import logic and is written as 0; scores, finished flag and provenance
fields take the model's column defaults). -/
def processCsvRow (row : CsvRow) (games_so_far : List GameRow) : RowOutcome :=
  match parseRowDate row with
  | .keyError => .keyError
  | .parseError => .skipped
  | .ok game_date =>
    let deadline := parseDeadline row game_date
    match row.team1, row.team2 with
    | some t1, some t2 =>
      match games_so_far.find? (fun g =>
          g.team1 == t1 && g.team2 == t2 && g.game_date == game_date) with
      | some _ => .duplicate
      | none =>
        match row.round with
        | none => .keyError
        | some rnd =>
          let g : GameRow :=
            { id := 0, team1 := t1, team2 := t2, game_date := game_date,
              prediction_deadline := deadline, round_name := rnd,
              team1_score := none, team2_score := none, is_finished := false,
              auto_update_attempted := false, auto_update_timestamp := none,
              result_source := "manual", serpapi_search_used := false }
          RowOutcome.add g
    | _, _ => .keyError

/-- Result of a fixtures import: `aborted` when an exception escaped the row
loop (the outer handler flashes the error and the final commit never runs, so
nothing is persisted), else the rows added and the number of rows skipped with
a reported date/time error. -/
inductive UploadResult where
  | aborted
  | committed (added : List GameRow) (skipped_rows : Nat)
  deriving Repr, DecidableEq

/-- The importer's row loop.  Rows already added in this import are visible to
the duplicate check (the session flushes pending inserts before a query). -/
def importLoop (existing : List GameRow) (added : List GameRow) (skipped : Nat) :
    List CsvRow → Option (List GameRow × Nat)
  | [] => some (added, skipped)
  | row :: rows =>
    match processCsvRow row (existing ++ added) with
    | .keyError => none
    | .skipped => importLoop existing added (skipped + 1) rows
    | .duplicate => importLoop existing added skipped rows
    | .add g => importLoop existing (added ++ [g]) skipped rows

/-- `upload_games` (app.py), from the point where the uploaded CSV has been
split into `DictReader` rows. -/
def upload_games (rows : List CsvRow) (existing : List GameRow) : UploadResult :=
  match importLoop existing [] 0 rows with
  | none => .aborted
  | some (added, skipped) => .committed added skipped

/-- A row whose date/time fields are present but fail every parse attempt —
the rows the importer skips with a reported error. -/
def isSkippedDate (r : CsvRow) : Bool :=
  match parseRowDate r with
  | .parseError => true
  | _ => false

/-- The prediction rows for one `(user, game)` key — the slice governed by the
table's unique constraint. -/
def predsForKey (preds : List PredRow) (user_id game_id : Nat) : List PredRow :=
  preds.filter (fun p => p.user_id == user_id && p.game_id == game_id)

/-- The shared upsert tail of `make_prediction` and `save_prediction_ajax`:
update the existing row for the `(user, game)` key in place, or insert a new
row.  (Both handlers inline this code; the lemmas below prove each equal to
it on the success path.) -/
def upsertPrediction (preds : List PredRow) (user_id game_id : Nat)
    (team1_score team2_score : Int) (game : GameRow) : List PredRow :=
  match findPrediction preds user_id game_id with
  | some _ =>
    updateFirstPred user_id game_id (fun existing =>
      { existing with
        team1_score := some team1_score
        team2_score := some team2_score
        predicted_winner :=
          some (if team1_score > team2_score then game.team1 else game.team2) }) preds
  | none =>
    preds ++ [{
      user_id := user_id
      game_id := game_id
      team1_score := some team1_score
      team2_score := some team2_score
      predicted_winner :=
        some (if team1_score > team2_score then game.team1 else game.team2)
      points := none }]

/-! Sample rows used by the concrete witnesses below. -/

/-- A sample unfinished game (id 1). -/
def sampleGame1 : GameRow :=
  { id := 1, team1 := "Italy", team2 := "France", game_date := 1000,
    prediction_deadline := 970, round_name := "Final", team1_score := none,
    team2_score := none, is_finished := false, auto_update_attempted := false,
    auto_update_timestamp := none, result_source := "manual", serpapi_search_used := false }

/-- A sample unfinished game (id 2). -/
def sampleGame2 : GameRow :=
  { id := 2, team1 := "Poland", team2 := "Brazil", game_date := 2000,
    prediction_deadline := 1970, round_name := "Bronze", team1_score := none,
    team2_score := none, is_finished := false, auto_update_attempted := false,
    auto_update_timestamp := none, result_source := "manual", serpapi_search_used := false }

/-- A sample real prediction of user 1 for game 1. -/
def samplePred1 : PredRow :=
  { user_id := 1, game_id := 1, team1_score := some 3, team2_score := some 0,
    predicted_winner := some "Italy", points := none }

/-- A sample real prediction of user 1 for game 2. -/
def samplePred2 : PredRow :=
  { user_id := 1, game_id := 2, team1_score := some 3, team2_score := some 2,
    predicted_winner := some "Poland", points := none }

/-- `sampleGame1` with a recorded 3-1 result. -/
def sampleFinishedGame1 : GameRow :=
  { sampleGame1 with team1_score := some 3, team2_score := some 1, is_finished := true }

/-- A sample well-formed fixtures CSV row. -/
def sampleCsvGood : CsvRow :=
  { team1 := some "Italy", team2 := some "France", date := some "2025-06-01",
    time := some "12:00", round := some "Final", prediction_deadline := none }

/-- A sample fixtures CSV row with a `time` column but an unparseable date. -/
def sampleCsvBad : CsvRow :=
  { team1 := some "Poland", team2 := some "Brazil", date := some "not a date",
    time := some "x", round := some "Final", prediction_deadline := none }

/-! ## Theorems -/

theorem decide_beq_decide (p q : Prop) [Decidable p] [Decidable q] :
    ((decide p == decide q) = true) ↔ (p ↔ q) := by
  rcases Decidable.em p with hp | hp <;> rcases Decidable.em q with hq | hq <;> simp [hp, hq]

/-- C1: `calculate_points` returns no points while the game is unfinished or a
predicted score is missing, and otherwise awards exactly the 6/4/2/1/0 band of
the specification's priority rules. -/
theorem match_scoring_correct (prediction : PredRow) (game : GameRow) :
    ((game.is_finished = false ∨ prediction.team1_score = none ∨
        prediction.team2_score = none) →
      calculate_points prediction game = none) ∧
    (∀ p1 p2 a1 a2 : Int, game.is_finished = true →
      prediction.team1_score = some p1 → prediction.team2_score = some p2 →
      game.team1_score = some a1 → game.team2_score = some a2 →
      calculate_points prediction game = some (specMatchPoints p1 p2 a1 a2)) := by
  constructor
  · intro h
    rcases h with h | h | h <;> simp [calculate_points, h]
  · intro p1 p2 a1 a2 hf h1 h2 ha1 ha2
    simp only [calculate_points, hf, h1, h2, ha1, ha2, Option.isNone_some,
      Bool.not_true, Bool.false_or, if_neg (by simp : ¬((false || false || false) = true))]
    by_cases he1 : p1 = a1 <;> by_cases he2 : p2 = a2 <;>
      by_cases hw : (p1 > p2 ↔ a1 > a2) <;>
      by_cases hm : |(p1 - p2) - (a1 - a2)| = (1 : Int) <;>
      by_cases ht : p1 + p2 = a1 + a2 <;>
      simp [specMatchPoints, he1, he2, hw, hm, ht, decide_beq_decide] <;>
      split_ifs <;> rfl

/-- Witness for C1 at the specification's own worked example: predicted 3-0,
actual 3-1 is a correct winner missed by one set, worth 4 points. -/
theorem match_scoring_correct_witness :
    calculate_points
      { user_id := 1, game_id := 7, team1_score := some 3, team2_score := some 0,
        predicted_winner := some "Italy", points := none }
      { id := 7, team1 := "Italy", team2 := "France", game_date := 1000,
        prediction_deadline := 970, round_name := "Final", team1_score := some 3,
        team2_score := some 1, is_finished := true, auto_update_attempted := false,
        auto_update_timestamp := none, result_source := "manual",
        serpapi_search_used := false } = some 4 := by
  have h := (match_scoring_correct
    { user_id := 1, game_id := 7, team1_score := some 3, team2_score := some 0,
      predicted_winner := some "Italy", points := none }
    { id := 7, team1 := "Italy", team2 := "France", game_date := 1000,
      prediction_deadline := 970, round_name := "Final", team1_score := some 3,
      team2_score := some 1, is_finished := true, auto_update_attempted := false,
      auto_update_timestamp := none, result_source := "manual",
      serpapi_search_used := false }).2 3 0 3 1 rfl rfl rfl rfl rfl
  rw [h]
  decide

theorem slot_accum (picks : List (Option String)) (actual pick : Option String)
    (bonus acc : Int) (hpick : pick ∈ picks) :
    (if picks.contains actual then
        (if pick == actual then acc + 15 + bonus else acc + 15)
      else acc) =
      acc + ((if actual ∈ picks then 15 else 0) + (if pick = actual then bonus else 0)) := by
  by_cases e : pick = actual
  · subst e
    simp [List.elem_iff, hpick]
    ring
  · by_cases m : actual ∈ picks <;> simp [List.elem_iff, m, e]

/-- C2 counterexample: the claim's "a fully exact prediction scores 75" fails —
the code awards 15+15 for the first slot and 15+5 for each of the other two,
i.e. 70, on a fully exact podium prediction. -/
theorem tournament_scoring_75_counterexample :
    calculate_tournament_points
      { user_id := 1, first_place := some "Italy", second_place := some "Poland",
        third_place := some "Brazil", points_earned := 0 }
      { prediction_deadline := 0, first_place_result := some "Italy",
        second_place_result := some "Poland", third_place_result := some "Brazil",
        is_finalized := true } = 70 ∧ (70 : Int) ≠ 75 := by
  constructor
  · decide
  · decide

/-- C2 (amended): tournament podium scoring returns 0 unless the configuration
is finalized with all three result slots populated; otherwise each
actual-result slot whose team appears anywhere among the player's picks is
worth 15, an exact slot match adds 15 / 5 / 5 for 1st / 2nd / 3rd, and a fully
exact prediction therefore scores 70 (not 75). -/
theorem tournament_scoring_correct (p : TournamentPredictionRow) (c : TournamentConfigRow) :
    (c.are_results_available = false → calculate_tournament_points p c = 0) ∧
    (c.are_results_available = true →
      calculate_tournament_points p c = specTournamentPoints p c) ∧
    (c.are_results_available = true →
      p.first_place = c.first_place_result → p.second_place = c.second_place_result →
      p.third_place = c.third_place_result → calculate_tournament_points p c = 70) := by
  have hmain : c.are_results_available = true →
      calculate_tournament_points p c = specTournamentPoints p c := by
    intro h
    unfold calculate_tournament_points specTournamentPoints
    simp only [h, Bool.not_true, Bool.false_eq_true, if_false]
    rw [slot_accum _ _ _ _ _ (by simp : p.first_place ∈
      [p.first_place, p.second_place, p.third_place])]
    rw [slot_accum _ _ _ _ _ (by simp : p.second_place ∈
      [p.first_place, p.second_place, p.third_place])]
    rw [slot_accum _ _ _ _ _ (by simp : p.third_place ∈
      [p.first_place, p.second_place, p.third_place])]
    ring
  refine ⟨?_, hmain, ?_⟩
  · intro h
    simp [calculate_tournament_points, h]
  · intro h e1 e2 e3
    rw [hmain h]
    unfold specTournamentPoints
    simp only [← e1, ← e2, ← e3]
    simp

/-- Witness for C2 (amended): a finalized podium with the player exact on all
three slots scores 70; the same configuration unfinalized scores 0. -/
theorem tournament_scoring_correct_witness :
    calculate_tournament_points
      { user_id := 2, first_place := some "France", second_place := some "Slovenia",
        third_place := some "Japan", points_earned := 0 }
      { prediction_deadline := 0, first_place_result := some "France",
        second_place_result := some "Slovenia", third_place_result := some "Japan",
        is_finalized := true } = 70 ∧
    calculate_tournament_points
      { user_id := 2, first_place := some "France", second_place := some "Slovenia",
        third_place := some "Japan", points_earned := 0 }
      { prediction_deadline := 0, first_place_result := some "France",
        second_place_result := some "Slovenia", third_place_result := some "Japan",
        is_finalized := false } = 0 := by
  constructor
  · exact (tournament_scoring_correct
      { user_id := 2, first_place := some "France", second_place := some "Slovenia",
        third_place := some "Japan", points_earned := 0 }
      { prediction_deadline := 0, first_place_result := some "France",
        second_place_result := some "Slovenia", third_place_result := some "Japan",
        is_finalized := true }).2.2 (by decide) rfl rfl rfl
  · exact (tournament_scoring_correct
      { user_id := 2, first_place := some "France", second_place := some "Slovenia",
        third_place := some "Japan", points_earned := 0 }
      { prediction_deadline := 0, first_place_result := some "France",
        second_place_result := some "Slovenia", third_place_result := some "Japan",
        is_finalized := false }).1 (by decide)

/-- C3: on the 16 score pairs with both sides in 0..3, the volleyball validity
predicate accepts exactly the six pairs in which one side is 3 and the other
is 0, 1 or 2; the same (inlined) check rejects invalid shapes at the
prediction-intake and official-result write paths. -/
theorem volleyball_score_validity (a b : Int) :
    (0 ≤ a → a ≤ 3 → 0 ≤ b → b ≤ 3 →
      (is_valid_volleyball_score a b = true ↔
        (a, b) ∈ ([(3, 0), (3, 1), (3, 2), (0, 3), (1, 3), (2, 3)] : List (Int × Int)))) ∧
    (∀ preds games uid gid now, 0 ≤ a → 0 ≤ b → is_valid_volleyball_score a b = false →
      make_prediction preds games uid gid a b now = (.invalidScore, preds)) ∧
    (∀ games preds gid, 0 ≤ a → 0 ≤ b → is_valid_volleyball_score a b = false →
      update_result games preds gid a b = (.invalidScore, games, preds)) := by
  refine ⟨?_, ?_, ?_⟩
  · intro ha0 ha3 hb0 hb3
    interval_cases a <;> interval_cases b <;> decide
  · intro preds games uid gid now ha0 hb0 hv
    have hna : ¬(a < 0 || b < 0) = true := by
      simp only [Bool.or_eq_true, decide_eq_true_eq]
      omega
    unfold is_valid_volleyball_score at hv
    unfold make_prediction
    rw [if_neg hna, if_pos (by rw [hv]; rfl)]
  · intro games preds gid ha0 hb0 hv
    have hna : ¬(a < 0 || b < 0) = true := by
      simp only [Bool.or_eq_true, decide_eq_true_eq]
      omega
    unfold is_valid_volleyball_score at hv
    unfold update_result
    rw [if_neg hna, if_pos (by rw [hv]; rfl)]

/-- Witness for C3: 3-1 is accepted; a 2-2 submission is rejected by the
intake endpoint with the prediction rows unchanged. -/
theorem volleyball_score_validity_witness :
    is_valid_volleyball_score 3 1 = true ∧
    make_prediction [] [] 1 5 2 2 0 = (.invalidScore, []) := by
  constructor
  · exact ((volleyball_score_validity 3 1).1 (by decide) (by decide) (by decide)
      (by decide)).mpr (by decide)
  · exact (volleyball_score_validity 2 2).2.1 [] [] 1 5 0 (by decide) (by decide) (by decide)

theorem map_if_id_eq_self (gid : Nat) (f : GameRow → GameRow) (l : List GameRow)
    (h : ∀ x ∈ l, x.id ≠ gid) :
    l.map (fun x => if x.id == gid then f x else x) = l := by
  induction l with
  | nil => rfl
  | cons g gs ih =>
    simp only [List.map_cons]
    rw [if_neg (by simpa using h g (by simp)), ih (fun x hx => h x (by simp [hx]))]

theorem updateFirstGame_eq_map (gid : Nat) (f : GameRow → GameRow) (games : List GameRow)
    (hnodup : (games.map (fun x => x.id)).Nodup) :
    updateFirstGame gid f games = games.map (fun x => if x.id == gid then f x else x) := by
  induction games with
  | nil => rfl
  | cons g gs ih =>
    simp only [List.map_cons, List.nodup_cons] at hnodup
    simp only [updateFirstGame, List.map_cons]
    by_cases hg : (g.id == gid) = true
    · rw [if_pos hg, if_pos hg]
      have hrest : ∀ x ∈ gs, x.id ≠ gid := by
        intro x hx hxid
        exact hnodup.1 (by
          rw [show g.id = gid from by simpa using hg, ← hxid]
          exact List.mem_map_of_mem _ hx)
      rw [map_if_id_eq_self gid f gs hrest]
    · rw [if_neg hg, if_neg hg, ih hnodup.2]

theorem mem_id_eq_find (games : List GameRow) (gid : Nat) (g x : GameRow)
    (hnodup : (games.map (fun y => y.id)).Nodup)
    (hfind : findGame games gid = some g) (hx : x ∈ games) (hid : x.id = gid) : x = g := by
  have hg_mem : g ∈ games := List.mem_of_find?_eq_some hfind
  have hg_id : g.id = gid := by
    have := List.find?_some hfind
    simpa using this
  exact List.inj_on_of_nodup_map hnodup hx hg_mem (by rw [hid, hg_id])

/-- C10: recording a valid result for game `G` changes only `G`'s two score
fields and its finished flag, and the `points` of `G`'s predictions; every
other game row and every prediction row of another game is untouched, and the
non-points fields of `G`'s own predictions are preserved. -/
theorem update_result_frame (games : List GameRow) (preds : List PredRow)
    (gid : Nat) (t1 t2 : Int) (g : GameRow)
    (hnodup : (games.map (fun x => x.id)).Nodup)
    (hfind : findGame games gid = some g)
    (hvalid : is_valid_volleyball_score t1 t2 = true) :
    update_result games preds gid t1 t2 =
      (.updated,
        games.map (fun x => if x.id == gid then { x with team1_score := some t1, team2_score := some t2, is_finished := true } else x),
        preds.map (fun p => if p.game_id == gid then { p with points := calculate_points p { g with team1_score := some t1, team2_score := some t2, is_finished := true } } else p)) ∧
    (∀ x ∈ games, x.id ≠ gid →
      ∀ y ∈ (update_result games preds gid t1 t2).2.1, y.id = x.id → y = x) ∧
    (∀ p ∈ preds, p.game_id ≠ gid → p ∈ (update_result games preds gid t1 t2).2.2) ∧
    (∀ p' ∈ (update_result games preds gid t1 t2).2.2, ∃ p ∈ preds,
      p'.user_id = p.user_id ∧ p'.game_id = p.game_id ∧
      p'.team1_score = p.team1_score ∧ p'.team2_score = p.team2_score ∧
      p'.predicted_winner = p.predicted_winner) := by
  have hbounds : (0 ≤ t1 ∧ t1 ≤ 3) ∧ (0 ≤ t2 ∧ t2 ≤ 3) := by
    have hb := hvalid
    unfold is_valid_volleyball_score at hb
    simp only [Bool.or_eq_true, Bool.and_eq_true, beq_iff_eq] at hb
    rcases hb with ⟨h1, h2⟩ | ⟨h1, h2⟩ <;> simp at h2 <;> omega
  have hna : ¬(t1 < 0 || t2 < 0) = true := by
    simp only [Bool.or_eq_true, decide_eq_true_eq]
    omega
  have hcond : ((t1 == 3 && ([0, 1, 2] : List Int).contains t2) ||
      (t2 == 3 && ([0, 1, 2] : List Int).contains t1)) = true := hvalid
  have hmain : update_result games preds gid t1 t2 =
      (.updated,
        games.map (fun x => if x.id == gid then { x with team1_score := some t1, team2_score := some t2, is_finished := true } else x),
        preds.map (fun p => if p.game_id == gid then { p with points := calculate_points p { g with team1_score := some t1, team2_score := some t2, is_finished := true } } else p)) := by
    unfold update_result
    rw [if_neg hna, if_neg (by rw [hcond]; simp), hfind]
    simp only [Prod.mk.injEq]
    refine ⟨trivial, ?_, trivial⟩
    rw [updateFirstGame_eq_map gid _ games hnodup]
    refine List.map_congr_left ?_
    intro x hx
    by_cases hxg : (x.id == gid) = true
    · rw [if_pos hxg, if_pos hxg]
      have hxeq : x = g := mem_id_eq_find games gid g x hnodup hfind hx (by simpa using hxg)
      subst hxeq
      rfl
    · rw [if_neg hxg, if_neg hxg]
  refine ⟨hmain, ?_, ?_, ?_⟩
  · intro x hx hxid y hy hyid
    rw [hmain] at hy
    simp only [List.mem_map] at hy
    obtain ⟨z, hz, hzy⟩ := hy
    by_cases hzg : z.id = gid
    · subst hzy
      rw [if_pos (by simpa using hzg)] at hyid ⊢
      simp only at hyid
      exact absurd (by rw [← hyid]; exact hzg) hxid
    · rw [← hzy, if_neg (by simpa using hzg)] at hyid ⊢
      exact List.inj_on_of_nodup_map hnodup hz hx hyid
  · intro p hp hpid
    rw [hmain]
    simp only [List.mem_map]
    exact ⟨p, hp, by rw [if_neg (by simpa using hpid)]⟩
  · intro p' hp'
    rw [hmain] at hp'
    simp only [List.mem_map] at hp'
    obtain ⟨p, hp, hpp⟩ := hp'
    refine ⟨p, hp, ?_⟩
    by_cases hpg : p.game_id = gid
    · rw [← hpp, if_pos (by simpa using hpg)]
      exact ⟨rfl, rfl, rfl, rfl, rfl⟩
    · rw [← hpp, if_neg (by simpa using hpg)]
      exact ⟨rfl, rfl, rfl, rfl, rfl⟩

theorem valid_score_bounds (t1 t2 : Int) (hv : is_valid_volleyball_score t1 t2 = true) :
    (0 ≤ t1 ∧ t1 ≤ 3) ∧ (0 ≤ t2 ∧ t2 ≤ 3) := by
  unfold is_valid_volleyball_score at hv
  simp only [Bool.or_eq_true, Bool.and_eq_true, beq_iff_eq] at hv
  rcases hv with ⟨h1, h2⟩ | ⟨h1, h2⟩ <;> simp at h2 <;> omega

theorem make_prediction_success_eq (preds : List PredRow) (games : List GameRow)
    (uid gid : Nat) (t1 t2 : Int) (now : Nat) (g : GameRow)
    (hfind : findGame games gid = some g)
    (hv : is_valid_volleyball_score t1 t2 = true)
    (hlt : now < g.prediction_deadline) :
    make_prediction preds games uid gid t1 t2 now =
      (.saved, upsertPrediction preds uid gid t1 t2 g) := by
  have hb := valid_score_bounds t1 t2 hv
  have hna : ¬(t1 < 0 || t2 < 0) = true := by
    simp only [Bool.or_eq_true, decide_eq_true_eq]
    omega
  have hcond := hv
  unfold is_valid_volleyball_score at hcond
  unfold make_prediction
  rw [if_neg hna, if_neg (by rw [hcond]; simp)]
  simp only [hfind]
  rw [if_neg (by omega : ¬ now ≥ g.prediction_deadline)]
  unfold upsertPrediction
  cases hfp : findPrediction preds uid gid <;> simp [hfp]

theorem ajax_success_eq (preds : List PredRow) (games : List GameRow)
    (uid gid : Nat) (t1 t2 : Int) (now : Nat) (g : GameRow)
    (hgid : gid ≠ 0)
    (hfind : findGame games gid = some g)
    (hv : is_valid_volleyball_score t1 t2 = true)
    (hlt : now < g.prediction_deadline) :
    save_prediction_ajax preds games uid gid t1 t2 now =
      (.saved (findPrediction preds uid gid).isSome,
        upsertPrediction preds uid gid t1 t2 g) := by
  have hb := valid_score_bounds t1 t2 hv
  have hna : ¬(t1 < 0 || t2 < 0) = true := by
    simp only [Bool.or_eq_true, decide_eq_true_eq]
    omega
  have hcond := hv
  unfold is_valid_volleyball_score at hcond
  unfold save_prediction_ajax
  rw [if_neg (by simpa using hgid), if_neg hna, if_neg (by rw [hcond]; simp)]
  simp only [hfind]
  rw [if_neg (by omega : ¬ now ≥ g.prediction_deadline)]
  unfold upsertPrediction
  cases hfp : findPrediction preds uid gid <;> simp [hfp]

/-- C6: for an existing game, a match-prediction submission at or after the
prediction deadline (in Riga time) is rejected and leaves the prediction rows
exactly as they were, whatever the game's started/finished state (the handlers
never read `game_date` or `is_finished`); a submission strictly before the
deadline that passes the volleyball score validation succeeds, on both the
form and the AJAX endpoint. -/
theorem prediction_deadline_gating (preds : List PredRow) (games : List GameRow)
    (uid gid : Nat) (t1 t2 : Int) (now : Nat) (g : GameRow)
    (hfind : findGame games gid = some g) :
    (g.prediction_deadline ≤ now →
      (make_prediction preds games uid gid t1 t2 now).2 = preds ∧
      (make_prediction preds games uid gid t1 t2 now).1 ≠ .saved ∧
      (save_prediction_ajax preds games uid gid t1 t2 now).2 = preds ∧
      (∀ b, (save_prediction_ajax preds games uid gid t1 t2 now).1 ≠ .saved b) ∧
      (is_valid_volleyball_score t1 t2 = true →
        make_prediction preds games uid gid t1 t2 now = (.deadlinePassed, preds))) ∧
    (now < g.prediction_deadline → is_valid_volleyball_score t1 t2 = true →
      (make_prediction preds games uid gid t1 t2 now).1 = .saved ∧
      (gid ≠ 0 → ∃ b, (save_prediction_ajax preds games uid gid t1 t2 now).1 = .saved b)) := by
  constructor
  · intro hge
    have hmp : (make_prediction preds games uid gid t1 t2 now).2 = preds ∧
        (make_prediction preds games uid gid t1 t2 now).1 ≠ .saved := by
      unfold make_prediction
      rw [hfind]
      split_ifs with h1 h2 h3 <;> simp_all
    have hajax : (save_prediction_ajax preds games uid gid t1 t2 now).2 = preds ∧
        (∀ b, (save_prediction_ajax preds games uid gid t1 t2 now).1 ≠ .saved b) := by
      unfold save_prediction_ajax
      rw [hfind]
      split_ifs with h1 h2 h3 h4 <;> simp_all
    refine ⟨hmp.1, hmp.2, hajax.1, hajax.2, ?_⟩
    intro hv
    have hb := valid_score_bounds t1 t2 hv
    have hcond := hv
    unfold is_valid_volleyball_score at hcond
    unfold make_prediction
    rw [if_neg (by simp only [Bool.or_eq_true, decide_eq_true_eq]; omega),
      if_neg (by rw [hcond]; simp)]
    simp only [hfind]
    rw [if_pos (by omega : now ≥ g.prediction_deadline)]
  · intro hlt hv
    refine ⟨?_, ?_⟩
    · rw [make_prediction_success_eq preds games uid gid t1 t2 now g hfind hv hlt]
    · intro hgid
      rw [ajax_success_eq preds games uid gid t1 t2 now g hgid hfind hv hlt]
      exact ⟨_, rfl⟩

/-- Witness for C6: with a deadline at minute 970, a 3-1 submission at minute
970 is rejected leaving the single existing row untouched, and the same
submission at minute 969 succeeds. -/
theorem prediction_deadline_gating_witness :
    findGame [sampleGame1] 1 = some sampleGame1 ∧
    make_prediction [samplePred2] [sampleGame1] 1 1 3 1 970 =
      (.deadlinePassed, [samplePred2]) ∧
    (make_prediction [samplePred2] [sampleGame1] 1 1 3 1 969).1 = .saved := by
  refine ⟨rfl, ?_, ?_⟩
  · exact ((prediction_deadline_gating [samplePred2] [sampleGame1] 1 1 3 1 970
      sampleGame1 rfl).1 (by decide)).2.2.2.2 (by decide)
  · exact ((prediction_deadline_gating [samplePred2] [sampleGame1] 1 1 3 1 969
      sampleGame1 rfl).2 (by decide) (by decide)).1

theorem findPrediction_eq_head (preds : List PredRow) (uid gid : Nat) :
    findPrediction preds uid gid = (predsForKey preds uid gid).head? :=
  (List.filter_head? _ preds).symm

theorem predsForKey_updateFirstPred (uid gid : Nat) (f : PredRow → PredRow)
    (preds : List PredRow)
    (hf : ∀ p : PredRow, (f p).user_id = p.user_id ∧ (f p).game_id = p.game_id) :
    predsForKey (updateFirstPred uid gid f preds) uid gid =
      match predsForKey preds uid gid with
      | [] => []
      | p :: ps => f p :: ps := by
  induction preds with
  | nil => rfl
  | cons p ps ih =>
    unfold predsForKey at ih ⊢
    simp only [updateFirstPred]
    by_cases hk : (p.user_id == uid && p.game_id == gid) = true
    · have hkf : ((f p).user_id == uid && (f p).game_id == gid) = true := by
        rw [(hf p).1, (hf p).2]; exact hk
      rw [if_pos hk]
      simp [List.filter_cons, hkf, hk]
    · rw [if_neg hk]
      simp [List.filter_cons, hk, ih]

theorem predsForKey_updateFirstPred_other (uid gid uid' gid' : Nat)
    (f : PredRow → PredRow) (preds : List PredRow)
    (hf : ∀ p : PredRow, (f p).user_id = p.user_id ∧ (f p).game_id = p.game_id)
    (hne : ¬(uid = uid' ∧ gid = gid')) :
    predsForKey (updateFirstPred uid gid f preds) uid' gid' =
      predsForKey preds uid' gid' := by
  induction preds with
  | nil => rfl
  | cons p ps ih =>
    unfold predsForKey at ih ⊢
    simp only [updateFirstPred]
    by_cases hk : (p.user_id == uid && p.game_id == gid) = true
    · rw [if_pos hk]
      have hpk : ¬(p.user_id == uid' && p.game_id == gid') = true := by
        simp only [Bool.and_eq_true, beq_iff_eq] at hk ⊢
        intro hc
        exact hne ⟨hk.1 ▸ hc.1 ▸ rfl, hk.2 ▸ hc.2 ▸ rfl⟩
      have hfk : ¬((f p).user_id == uid' && (f p).game_id == gid') = true := by
        rw [(hf p).1, (hf p).2]; exact hpk
      simp [List.filter_cons, hfk, hpk]
    · rw [if_neg hk]
      by_cases hpk : (p.user_id == uid' && p.game_id == gid') = true
      · simp [List.filter_cons, hpk, ih]
      · simp [List.filter_cons, hpk, ih]

theorem predsForKey_upsert (preds : List PredRow) (uid gid : Nat) (t1 t2 : Int)
    (g : GameRow) (hkey : (predsForKey preds uid gid).length ≤ 1) :
    ∃ pts, predsForKey (upsertPrediction preds uid gid t1 t2 g) uid gid =
      [{ user_id := uid, game_id := gid, team1_score := some t1, team2_score := some t2,
         predicted_winner := some (if t1 > t2 then g.team1 else g.team2), points := pts }] := by
  unfold upsertPrediction
  split
  · rename_i e hfp
    rw [predsForKey_updateFirstPred uid gid (fun existing => { existing with team1_score := some t1, team2_score := some t2, predicted_winner := some (if t1 > t2 then g.team1 else g.team2) }) preds (fun p => ⟨rfl, rfl⟩)]
    have hne : predsForKey preds uid gid ≠ [] := by
      intro hc
      rw [findPrediction_eq_head, hc] at hfp
      simp at hfp
    obtain ⟨p, ps, hcons⟩ := List.exists_cons_of_ne_nil hne
    have hps : ps = [] := by
      rw [hcons] at hkey
      simp only [List.length_cons] at hkey
      exact List.eq_nil_of_length_eq_zero (by omega)
    have hmem : p ∈ predsForKey preds uid gid := by
      rw [hcons, hps]
      simp
    unfold predsForKey at hmem
    have hk : (p.user_id == uid && p.game_id == gid) = true := (List.mem_filter.mp hmem).2
    simp only [Bool.and_eq_true, beq_iff_eq] at hk
    refine ⟨p.points, ?_⟩
    rw [hcons, hps]
    simp only
    congr 1
    cases p
    simp_all
  · rename_i hfp
    have hempty : predsForKey preds uid gid = [] := by
      rw [findPrediction_eq_head] at hfp
      exact List.head?_eq_none_iff.mp hfp
    refine ⟨none, ?_⟩
    unfold predsForKey at hempty ⊢
    rw [List.filter_append, hempty]
    simp

theorem predsForKey_upsert_le (preds : List PredRow) (uid gid : Nat) (t1 t2 : Int)
    (g : GameRow) (uid' gid' : Nat)
    (hkey : (predsForKey preds uid' gid').length ≤ 1)
    (hkey0 : (predsForKey preds uid gid).length ≤ 1) :
    (predsForKey (upsertPrediction preds uid gid t1 t2 g) uid' gid').length ≤ 1 := by
  by_cases hsame : uid = uid' ∧ gid = gid'
  · obtain ⟨h1, h2⟩ := hsame
    subst h1; subst h2
    obtain ⟨pts, hp⟩ := predsForKey_upsert preds uid gid t1 t2 g hkey0
    rw [hp]
    simp
  · unfold upsertPrediction
    split
    · rename_i e hfp
      rw [predsForKey_updateFirstPred_other uid gid uid' gid' (fun existing => { existing with team1_score := some t1, team2_score := some t2, predicted_winner := some (if t1 > t2 then g.team1 else g.team2) }) preds (fun p => ⟨rfl, rfl⟩) hsame]
      exact hkey
    · rename_i hfp
      unfold predsForKey at hkey ⊢
      rw [List.filter_append]
      have hnew : ¬(uid == uid' && gid == gid') = true := by
        simp only [Bool.and_eq_true, beq_iff_eq]
        exact hsame
      simp only [List.filter_cons, hnew]
      simpa using hkey

theorem make_prediction_state_cases (preds : List PredRow) (games : List GameRow)
    (uid gid : Nat) (t1 t2 : Int) (now : Nat) :
    (make_prediction preds games uid gid t1 t2 now).2 = preds ∨
    ∃ g, findGame games gid = some g ∧
      (make_prediction preds games uid gid t1 t2 now).2 =
        upsertPrediction preds uid gid t1 t2 g := by
  unfold make_prediction
  by_cases h1 : (t1 < 0 || t2 < 0) = true
  · rw [if_pos h1]
    exact Or.inl rfl
  · rw [if_neg h1]
    by_cases h2 : (!((t1 == 3 && ([0, 1, 2] : List Int).contains t2) ||
        (t2 == 3 && ([0, 1, 2] : List Int).contains t1))) = true
    · rw [if_pos h2]
      exact Or.inl rfl
    · rw [if_neg h2]
      cases hg : findGame games gid with
      | none => exact Or.inl rfl
      | some g =>
        simp only []
        by_cases h3 : now ≥ g.prediction_deadline
        · rw [if_pos h3]
          exact Or.inl rfl
        · rw [if_neg h3]
          refine Or.inr ⟨g, rfl, ?_⟩
          unfold upsertPrediction
          cases hfp : findPrediction preds uid gid <;> simp only []

theorem ajax_state_cases (preds : List PredRow) (games : List GameRow)
    (uid gid : Nat) (t1 t2 : Int) (now : Nat) :
    (save_prediction_ajax preds games uid gid t1 t2 now).2 = preds ∨
    ∃ g, findGame games gid = some g ∧
      (save_prediction_ajax preds games uid gid t1 t2 now).2 =
        upsertPrediction preds uid gid t1 t2 g := by
  unfold save_prediction_ajax
  by_cases h0 : (gid == 0) = true
  · rw [if_pos h0]
    exact Or.inl rfl
  · rw [if_neg h0]
    by_cases h1 : (t1 < 0 || t2 < 0) = true
    · rw [if_pos h1]
      exact Or.inl rfl
    · rw [if_neg h1]
      by_cases h2 : (!((t1 == 3 && ([0, 1, 2] : List Int).contains t2) ||
          (t2 == 3 && ([0, 1, 2] : List Int).contains t1))) = true
      · rw [if_pos h2]
        exact Or.inl rfl
      · rw [if_neg h2]
        cases hg : findGame games gid with
        | none => exact Or.inl rfl
        | some g =>
          simp only []
          by_cases h3 : now ≥ g.prediction_deadline
          · rw [if_pos h3]
            exact Or.inl rfl
          · rw [if_neg h3]
            refine Or.inr ⟨g, rfl, ?_⟩
            unfold upsertPrediction
            cases hfp : findPrediction preds uid gid <;> simp only []

/-- C7: two valid submissions in sequence before the deadline leave exactly
one row for the `(user, game)` key, carrying the second submission's scores
and derived winner; and neither intake endpoint ever takes a state with at
most one row per `(user, game)` key to a state with two, for any inputs. -/
theorem prediction_upsert_unique (preds : List PredRow) (games : List GameRow)
    (uid gid : Nat) (a1 a2 b1 b2 : Int) (now1 now2 : Nat) (g : GameRow)
    (hfind : findGame games gid = some g)
    (hkey : (predsForKey preds uid gid).length ≤ 1)
    (h1 : now1 < g.prediction_deadline) (h2 : now2 < g.prediction_deadline)
    (hv1 : is_valid_volleyball_score a1 a2 = true)
    (hv2 : is_valid_volleyball_score b1 b2 = true) :
    (∃ pts, predsForKey
        ((make_prediction ((make_prediction preds games uid gid a1 a2 now1).2)
          games uid gid b1 b2 now2).2) uid gid =
        [{ user_id := uid, game_id := gid, team1_score := some b1,
           team2_score := some b2,
           predicted_winner := some (if b1 > b2 then g.team1 else g.team2),
           points := pts }]) ∧
    (∀ uid' gid' t1 t2 now,
      (∀ u v, (predsForKey preds u v).length ≤ 1) →
      (predsForKey (make_prediction preds games uid' gid' t1 t2 now).2 uid gid).length ≤ 1 ∧
      (predsForKey (save_prediction_ajax preds games uid' gid' t1 t2 now).2 uid gid).length ≤ 1) := by
  constructor
  · rw [make_prediction_success_eq preds games uid gid a1 a2 now1 g hfind hv1 h1]
    simp only
    rw [make_prediction_success_eq _ games uid gid b1 b2 now2 g hfind hv2 h2]
    simp only
    refine predsForKey_upsert _ uid gid b1 b2 g ?_
    obtain ⟨pts, hp⟩ := predsForKey_upsert preds uid gid a1 a2 g hkey
    rw [hp]
    simp
  · intro uid' gid' t1 t2 now hall
    constructor
    · rcases make_prediction_state_cases preds games uid' gid' t1 t2 now with h | ⟨g', _, h⟩
      · rw [h]; exact hall uid gid
      · rw [h]
        exact predsForKey_upsert_le preds uid' gid' t1 t2 g' uid gid
          (hall uid gid) (hall uid' gid')
    · rcases ajax_state_cases preds games uid' gid' t1 t2 now with h | ⟨g', _, h⟩
      · rw [h]; exact hall uid gid
      · rw [h]
        exact predsForKey_upsert_le preds uid' gid' t1 t2 g' uid gid
          (hall uid gid) (hall uid' gid')

/-- Witness for C7: submitting 3-0 and then 1-3 for game 1 before its deadline
leaves exactly one row for user 2 and game 1, holding 1-3 with France as the
derived winner. -/
theorem prediction_upsert_unique_witness :
    predsForKey ((make_prediction ((make_prediction [] [sampleGame1] 2 1 3 0 900).2)
        [sampleGame1] 2 1 1 3 901).2) 2 1 =
      [{ user_id := 2, game_id := 1, team1_score := some 1, team2_score := some 3,
         predicted_winner := some "France", points := none }] := by
  obtain ⟨pts, hp⟩ := (prediction_upsert_unique [] [sampleGame1] 2 1 3 0 1 3 900 901
    sampleGame1 rfl (by decide) (by decide) (by decide) (by decide) (by decide)).1
  rw [hp]
  have : pts = none := by
    have hev : predsForKey ((make_prediction ((make_prediction [] [sampleGame1] 2 1 3 0 900).2)
        [sampleGame1] 2 1 1 3 901).2) 2 1 =
        [{ user_id := 2, game_id := 1, team1_score := some 1, team2_score := some 3,
           predicted_winner := some "France", points := none }] := by decide
    rw [hev] at hp
    have hpts : sampleGame1.team2 = "France" ∧ pts = none := by simpa using hp.symm
    exact hpts.2
  rw [this]
  decide

/-- Witness for C10: recording 3-1 for game 1 marks only game 1 finished with
its scores, scores only game 1's prediction (3-0 predicted against 3-1 actual
is worth 4), and leaves game 2 and its prediction untouched. -/
theorem update_result_frame_witness :
    (([sampleGame1, sampleGame2].map (fun x => x.id)).Nodup) ∧
    is_valid_volleyball_score 3 1 = true ∧
    (update_result [sampleGame1, sampleGame2] [samplePred1, samplePred2] 1 3 1).2.2.map
      (fun p => p.points) = [some 4, none] ∧
    (update_result [sampleGame1, sampleGame2] [samplePred1, samplePred2] 1 3 1).2.1.map
      (fun x => (x.is_finished, x.team1_score, x.team2_score)) =
      [(true, some 3, some 1), (false, none, none)] := by
  have h := (update_result_frame [sampleGame1, sampleGame2] [samplePred1, samplePred2]
    1 3 1 sampleGame1 (by decide) rfl (by decide)).1
  refine ⟨by decide, by decide, ?_, ?_⟩
  · rw [h]
    decide
  · rw [h]
    decide

/-- C4: for a finished game, with `L` any ascending sort of the recomputed
points of the game's real predictions, the engine's default score is `L[N-1]`
when `L` has at least `N` entries, else the single worst value `L[0]` when `L`
is non-empty, else 0; and that value is exactly what one engine iteration
writes into every placeholder row of the game (both pre-existing ones and the
ones created for non-predictors). -/
theorem default_points_selection (all_users : List Nat) (n : Nat) (g : GameRow)
    (preds : List PredRow) (L : List Int)
    (_hn : 1 ≤ n)
    (hperm : L.Perm (realPoints g preds))
    (hsorted : L.Sorted (· ≤ ·)) :
    (default_points_of n g preds =
      if n ≤ L.length then L.getD (n - 1) 0
      else if 0 < L.length then L.getD 0 0 else 0) ∧
    (∀ p ∈ (processGame all_users n g preds).1, p.game_id = g.id →
      p.is_default_prediction = true →
      p.points = some (if n ≤ L.length then L.getD (n - 1) 0
        else if 0 < L.length then L.getD 0 0 else 0)) := by
  have hL : L = (realPoints g preds).insertionSort (fun a b => a ≤ b) := by
    refine List.eq_of_perm_of_sorted ?_ hsorted ?_
    · exact hperm.trans (List.perm_insertionSort _ _).symm
    · exact List.sorted_insertionSort _ _
  have hfirst : default_points_of n g preds =
      if n ≤ L.length then L.getD (n - 1) 0
      else if 0 < L.length then L.getD 0 0 else 0 := by
    simp only [default_points_of]
    rw [← hL]
  refine ⟨hfirst, ?_⟩
  intro p hp hgid hdef
  rw [← hfirst]
  simp only [processGame, List.mem_append] at hp
  rcases hp with hp | hp
  · obtain ⟨q, hq, hqp⟩ := List.mem_map.mp hp
    by_cases hqg : (q.game_id == g.id) = true
    · rw [if_pos hqg] at hqp
      have hqdef : q.is_default_prediction = true := by
        rw [← hqp] at hdef
        exact hdef
      rw [← hqp]
      simp only [writeVal, hqdef, if_pos]
    · rw [if_neg hqg] at hqp
      rw [← hqp] at hgid
      exact absurd (by simpa using hgid) hqg
  · obtain ⟨u, hu, hup⟩ := List.mem_map.mp hp
    rw [← hup]
    rfl

/-- Witness for C4 (the specification's own boundary example): three real
predictions scoring {0, 2, 6}; with N = 2 the default is 2 (the 2nd-worst),
with N = 5 it falls back to the single worst, 0. -/
theorem default_points_selection_witness :
    default_points_of 2 (mockGame "A" "B" 3 0)
      [{ user_id := 1, game_id := 0, team1_score := some 3, team2_score := some 0,
         predicted_winner := some "A", points := none },
       { user_id := 2, game_id := 0, team1_score := some 3, team2_score := some 2,
         predicted_winner := some "A", points := none },
       { user_id := 3, game_id := 0, team1_score := some 1, team2_score := some 3,
         predicted_winner := some "B", points := none }] = 2 ∧
    default_points_of 5 (mockGame "A" "B" 3 0)
      [{ user_id := 1, game_id := 0, team1_score := some 3, team2_score := some 0,
         predicted_winner := some "A", points := none },
       { user_id := 2, game_id := 0, team1_score := some 3, team2_score := some 2,
         predicted_winner := some "A", points := none },
       { user_id := 3, game_id := 0, team1_score := some 1, team2_score := some 3,
         predicted_winner := some "B", points := none }] = 0 := by
  constructor
  · rw [(default_points_selection [] 2 (mockGame "A" "B" 3 0)
      [{ user_id := 1, game_id := 0, team1_score := some 3, team2_score := some 0,
         predicted_winner := some "A", points := none },
       { user_id := 2, game_id := 0, team1_score := some 3, team2_score := some 2,
         predicted_winner := some "A", points := none },
       { user_id := 3, game_id := 0, team1_score := some 1, team2_score := some 3,
         predicted_winner := some "B", points := none }] [0, 2, 6]
      (by decide) (by decide) (by decide)).1]
    decide
  · rw [(default_points_selection [] 5 (mockGame "A" "B" 3 0)
      [{ user_id := 1, game_id := 0, team1_score := some 3, team2_score := some 0,
         predicted_winner := some "A", points := none },
       { user_id := 2, game_id := 0, team1_score := some 3, team2_score := some 2,
         predicted_winner := some "A", points := none },
       { user_id := 3, game_id := 0, team1_score := some 1, team2_score := some 3,
         predicted_winner := some "B", points := none }] [0, 2, 6]
      (by decide) (by decide) (by decide)).1]
    decide

theorem userPrediction_foldl (preds : List PredRow) (uid : Nat) (a : Option PredRow) :
    preds.foldl (fun acc p => if p.user_id == uid then some p else acc) a =
      match userPrediction preds uid with
      | some q => some q
      | none => a := by
  induction preds generalizing a with
  | nil => rfl
  | cons p ps ih =>
    unfold userPrediction
    simp only [List.foldl_cons]
    rw [ih, ih]
    cases userPrediction ps uid with
    | some q => rfl
    | none => by_cases hc : (p.user_id == uid) = true <;> simp [hc]

theorem userPrediction_eq_none (preds : List PredRow) (uid : Nat)
    (h : uid ∉ preds.map (fun p => p.user_id)) : userPrediction preds uid = none := by
  induction preds with
  | nil => rfl
  | cons p ps ih =>
    simp only [List.map_cons, List.mem_cons] at h
    push_neg at h
    unfold userPrediction
    simp only [List.foldl_cons]
    rw [if_neg (by simpa using fun hc => h.1 hc.symm)]
    exact ih h.2

theorem sum_map_congr_except (users : List UserSnapshot) (f h : Nat → Int) (x : Nat)
    (hnodup : (users.map (fun u => u.id)).Nodup) (hx : x ∈ users.map (fun u => u.id))
    (hagree : ∀ y, y ≠ x → f y = h y) :
    (users.map (fun u => f u.id)).sum = (users.map (fun u => h u.id)).sum + (f x - h x) := by
  induction users with
  | nil => simp at hx
  | cons u us ih =>
    simp only [List.map_cons, List.nodup_cons] at hnodup
    simp only [List.map_cons, List.sum_cons]
    by_cases hux : u.id = x
    · have htails : (us.map (fun v => f v.id)).sum = (us.map (fun v => h v.id)).sum := by
        have : us.map (fun v => f v.id) = us.map (fun v => h v.id) :=
          List.map_congr_left (fun v hv => hagree v.id (by
            intro hc
            refine hnodup.1 ?_
            rw [hux, ← hc]
            exact List.mem_map_of_mem _ hv))
        rw [this]
      rw [hux, htails]
      ring
    · have hxus : x ∈ us.map (fun u => u.id) := by
        simp only [List.map_cons, List.mem_cons] at hx
        rcases hx with hx | hx
        · exact absurd hx.symm hux
        · exact hx
      rw [hagree u.id hux, ih hnodup.2 hxus]
      ring

theorem sum_points_earned (users : List UserSnapshot) (preds : List PredRow)
    (mock : GameRow)
    (hnodup_users : (users.map (fun u => u.id)).Nodup)
    (hnodup_preds : (preds.map (fun p => p.user_id)).Nodup)
    (hcover : ∀ p ∈ preds, p.user_id ∈ users.map (fun u => u.id)) :
    (users.map (fun u => points_earned preds u.id mock)).sum =
      ((preds.filter (fun p => p.team1_score.isSome && p.team2_score.isSome)).map
        (fun p => (calculate_points p mock).getD 0)).sum := by
  induction preds with
  | nil =>
    have : users.map (fun u => points_earned [] u.id mock) = users.map (fun _ => (0 : Int)) :=
      List.map_congr_left (fun u _ => rfl)
    rw [this]
    simp
  | cons p ps ih =>
    simp only [List.map_cons, List.nodup_cons] at hnodup_preds
    have hcns : ∀ uid, userPrediction (p :: ps) uid =
        match userPrediction ps uid with
        | some q => some q
        | none => if (p.user_id == uid) = true then some p else none := by
      intro uid
      unfold userPrediction
      simp only [List.foldl_cons]
      rw [userPrediction_foldl]
      rfl
    have hsplit : ∀ uid, points_earned (p :: ps) uid mock =
        if uid = p.user_id then
          (if p.team1_score.isSome && p.team2_score.isSome then
            (calculate_points p mock).getD 0 else 0)
        else points_earned ps uid mock := by
      intro uid
      unfold points_earned
      rw [hcns]
      by_cases huid : uid = p.user_id
      · rw [if_pos huid]
        have hnone : userPrediction ps uid = none := by
          refine userPrediction_eq_none ps uid ?_
          rw [huid]
          exact hnodup_preds.1
        rw [hnone]
        simp only []
        rw [if_pos (by simpa using huid.symm)]
      · rw [if_neg huid]
        cases hup : userPrediction ps uid with
        | some q => rfl
        | none =>
          simp only []
          rw [if_neg (by simpa using fun hc => huid hc.symm)]
    have hmaps : users.map (fun u => points_earned (p :: ps) u.id mock) =
        users.map (fun u => (fun uid => if uid = p.user_id then
          (if p.team1_score.isSome && p.team2_score.isSome then
            (calculate_points p mock).getD 0 else 0)
          else points_earned ps uid mock) u.id) :=
      List.map_congr_left (fun u _ => hsplit u.id)
    rw [hmaps]
    rw [sum_map_congr_except users
      (fun uid => if uid = p.user_id then
        (if (p.team1_score.isSome && p.team2_score.isSome) = true then
          (calculate_points p mock).getD 0 else 0)
        else points_earned ps uid mock)
      (fun uid => points_earned ps uid mock) p.user_id
      hnodup_users (hcover p (by simp))
      (fun y hy => by simp only []; rw [if_neg hy])]
    rw [ih hnodup_preds.2 (fun q hq => hcover q (by simp [hq]))]
    have hzero : points_earned ps p.user_id mock = 0 := by
      unfold points_earned
      rw [show userPrediction ps p.user_id = none from
        userPrediction_eq_none ps p.user_id hnodup_preds.1]
    rw [if_pos rfl, hzero]
    by_cases hreal : (p.team1_score.isSome && p.team2_score.isSome) = true
    · rw [if_pos hreal]
      rw [show List.filter (fun q => q.team1_score.isSome && q.team2_score.isSome) (p :: ps) =
          p :: List.filter (fun q => q.team1_score.isSome && q.team2_score.isSome) ps from
        List.filter_cons_of_pos hreal]
      simp only [List.map_cons, List.sum_cons]
      ring
    · rw [if_neg hreal]
      rw [show List.filter (fun q => q.team1_score.isSome && q.team2_score.isSome) (p :: ps) =
          List.filter (fun q => q.team1_score.isSome && q.team2_score.isSome) ps from
        List.filter_cons_of_neg hreal]
      ring

/-- C8: in the what-if analyzer, for each of the six simulated outcomes of the
target game, the sum over all users of (hypothetical new total − current
total) equals the sum, over the game's real predictions, of the points the
scoring engine awards each of them against the simulated result; users
without a real prediction contribute exactly 0.  Users have distinct ids,
prediction rows belong to distinct existing users (the unique constraint and
the foreign key). -/
theorem potential_points_conservation (users : List UserSnapshot)
    (preds : List PredRow) (target : GameRow) (outcome : Int × Int × String)
    (_houtcome : outcome ∈ possible_outcomes target)
    (hnodup_users : (users.map (fun u => u.id)).Nodup)
    (hnodup_preds : (preds.map (fun p => p.user_id)).Nodup)
    (hcover : ∀ p ∈ preds, p.user_id ∈ users.map (fun u => u.id)) :
    ((scenarioUserResults users preds
        (mockGame target.team1 target.team2 outcome.1 outcome.2.1)).map
      (fun r => r.2.2 - r.1.current_total)).sum =
    ((preds.filter (fun p => p.team1_score.isSome && p.team2_score.isSome)).map
      (fun p => (calculate_points p
        (mockGame target.team1 target.team2 outcome.1 outcome.2.1)).getD 0)).sum := by
  have hlhs : (scenarioUserResults users preds
        (mockGame target.team1 target.team2 outcome.1 outcome.2.1)).map
      (fun r => r.2.2 - r.1.current_total) =
      users.map (fun u => points_earned preds u.id
        (mockGame target.team1 target.team2 outcome.1 outcome.2.1)) := by
    unfold scenarioUserResults
    rw [List.map_map]
    refine List.map_congr_left (fun u _ => ?_)
    simp only [Function.comp]
    ring
  rw [hlhs]
  exact sum_points_earned users preds _ hnodup_users hnodup_preds hcover

/-- Witness for C8 at the outcome 3-2 of a two-user game: one real 3-0
prediction earning 2 points and one non-predictor contributing 0, so the
leaderboard gains exactly 2 points in total. -/
theorem potential_points_conservation_witness :
    ((scenarioUserResults [{ id := 1, current_total := 10 }, { id := 2, current_total := 7 }]
        [samplePred1] (mockGame "Italy" "France" 3 2)).map
      (fun r => r.2.2 - r.1.current_total)).sum = 2 := by
  have h := potential_points_conservation
    [{ id := 1, current_total := 10 }, { id := 2, current_total := 7 }]
    [samplePred1] sampleGame1 (3, 2, "Italy 3-2") (by decide) (by decide) (by decide)
    (by decide)
  have hg : sampleGame1.team1 = "Italy" ∧ sampleGame1.team2 = "France" := by decide
  rw [hg.1, hg.2] at h
  rw [h]
  decide

theorem parseRowDate_not_keyError (r : CsvRow) (hd : r.date.isSome)
    (htm : r.time.isSome) : parseRowDate r ≠ RowDateResult.keyError := by
  obtain ⟨d, hd⟩ := Option.isSome_iff_exists.mp hd
  obtain ⟨t, htm⟩ := Option.isSome_iff_exists.mp htm
  unfold parseRowDate
  rw [hd, htm]
  simp only []
  split
  · simp
  · split <;> simp

theorem processCsvRow_skip (r : CsvRow) (st : List GameRow)
    (hpd : parseRowDate r = .parseError) : processCsvRow r st = .skipped := by
  unfold processCsvRow
  rw [hpd]

theorem processCsvRow_ok_cases (r : CsvRow) (st : List GameRow) (t : Nat)
    (ht1 : r.team1.isSome) (ht2 : r.team2.isSome) (hrd : r.round.isSome)
    (hpd : parseRowDate r = .ok t) :
    processCsvRow r st = .duplicate ∨ ∃ g, processCsvRow r st = .add g := by
  obtain ⟨t1, h1⟩ := Option.isSome_iff_exists.mp ht1
  obtain ⟨t2, h2⟩ := Option.isSome_iff_exists.mp ht2
  obtain ⟨rd, h3⟩ := Option.isSome_iff_exists.mp hrd
  unfold processCsvRow
  rw [hpd, h1, h2]
  simp only []
  cases st.find? (fun g => g.team1 == t1 && g.team2 == t2 && g.game_date == t) with
  | some e => exact Or.inl rfl
  | none =>
    rw [h3]
    exact Or.inr ⟨_, rfl⟩

theorem importLoop_counter (rows : List CsvRow) (existing added : List GameRow)
    (skipped : Nat) :
    importLoop existing added skipped rows =
      (importLoop existing added 0 rows).map (fun x => (x.1, x.2 + skipped)) := by
  induction rows generalizing added skipped with
  | nil => simp [importLoop]
  | cons r rs ih =>
    unfold importLoop
    cases processCsvRow r (existing ++ added) with
    | keyError => rfl
    | skipped =>
      show importLoop existing added (skipped + 1) rs =
        (importLoop existing added (0 + 1) rs).map (fun x => (x.1, x.2 + skipped))
      rw [ih added (skipped + 1), ih added (0 + 1)]
      cases importLoop existing added 0 rs with
      | none => rfl
      | some x =>
        show some (x.1, x.2 + (skipped + 1)) = some (x.1, x.2 + (0 + 1) + skipped)
        rw [show x.2 + (skipped + 1) = x.2 + (0 + 1) + skipped from by omega]
    | duplicate => exact ih added skipped
    | add g => exact ih (added ++ [g]) skipped

theorem importLoop_skips (rows : List CsvRow) (existing : List GameRow) :
    ∀ added, (∀ r ∈ rows, r.team1.isSome ∧ r.team2.isSome ∧ r.date.isSome ∧
      r.time.isSome ∧ r.round.isSome) →
    ∃ l, importLoop existing added 0 rows =
        some (l, (rows.filter (fun r => isSkippedDate r)).length) ∧
      importLoop existing added 0 (rows.filter (fun r => !isSkippedDate r)) =
        some (l, 0) := by
  induction rows with
  | nil => exact fun added _ => ⟨added, rfl, rfl⟩
  | cons r rs ih =>
    intro added hkeys
    obtain ⟨ht1, ht2, hd, htm, hrd⟩ := hkeys r (by simp)
    have hkeys' : ∀ q ∈ rs, q.team1.isSome ∧ q.team2.isSome ∧ q.date.isSome ∧
        q.time.isSome ∧ q.round.isSome := fun q hq => hkeys q (by simp [hq])
    cases hpd : parseRowDate r with
    | keyError => exact absurd hpd (parseRowDate_not_keyError r hd htm)
    | parseError =>
      have hskip : isSkippedDate r = true := by
        unfold isSkippedDate
        rw [hpd]
      have hrow : processCsvRow r (existing ++ added) = .skipped :=
        processCsvRow_skip r _ hpd
      obtain ⟨l, hl1, hl2⟩ := ih added hkeys'
      refine ⟨l, ?_, ?_⟩
      · rw [show List.filter (fun q => isSkippedDate q) (r :: rs) =
            r :: List.filter (fun q => isSkippedDate q) rs from
          List.filter_cons_of_pos hskip]
        simp only [List.length_cons]
        unfold importLoop
        rw [hrow]
        show importLoop existing added (0 + 1) rs =
          some (l, (List.filter (fun q => isSkippedDate q) rs).length + 1)
        rw [importLoop_counter, hl1]
        show some (l, (List.filter (fun q => isSkippedDate q) rs).length + (0 + 1)) = _
        rw [show (List.filter (fun q => isSkippedDate q) rs).length + (0 + 1) =
          (List.filter (fun q => isSkippedDate q) rs).length + 1 from by omega]
      · rw [show List.filter (fun q => !isSkippedDate q) (r :: rs) =
            List.filter (fun q => !isSkippedDate q) rs from
          List.filter_cons_of_neg (by rw [hskip]; simp)]
        exact hl2
    | ok t =>
      have hskip : isSkippedDate r = false := by
        unfold isSkippedDate
        rw [hpd]
      rcases processCsvRow_ok_cases r (existing ++ added) t ht1 ht2 hrd hpd with
        hrow | ⟨g, hrow⟩
      · obtain ⟨l, hl1, hl2⟩ := ih added hkeys'
        refine ⟨l, ?_, ?_⟩
        · rw [show List.filter (fun q => isSkippedDate q) (r :: rs) =
              List.filter (fun q => isSkippedDate q) rs from
            List.filter_cons_of_neg (by rw [hskip]; simp)]
          unfold importLoop
          rw [hrow]
          exact hl1
        · rw [show List.filter (fun q => !isSkippedDate q) (r :: rs) =
              r :: List.filter (fun q => !isSkippedDate q) rs from
            List.filter_cons_of_pos (by rw [hskip]; rfl)]
          unfold importLoop
          rw [hrow]
          exact hl2
      · obtain ⟨l, hl1, hl2⟩ := ih (added ++ [g]) hkeys'
        refine ⟨l, ?_, ?_⟩
        · rw [show List.filter (fun q => isSkippedDate q) (r :: rs) =
              List.filter (fun q => isSkippedDate q) rs from
            List.filter_cons_of_neg (by rw [hskip]; simp)]
          unfold importLoop
          rw [hrow]
          exact hl1
        · rw [show List.filter (fun q => !isSkippedDate q) (r :: rs) =
              r :: List.filter (fun q => !isSkippedDate q) rs from
            List.filter_cons_of_pos (by rw [hskip]; rfl)]
          unfold importLoop
          rw [hrow]
          exact hl2

/-- C9 counterexample: in a fixtures CSV without a `time` column, a row whose
combined date fails to parse does not merely skip that row — the fallback
parse reads `row['time']`, the resulting `KeyError` escapes the row loop, and
the whole import aborts with nothing committed, although the first row was
valid. -/
theorem upload_games_abort_counterexample :
    upload_games
      [{ team1 := some "Italy", team2 := some "France", date := some "2025-06-01 12:00",
         time := none, round := some "Final", prediction_deadline := none },
       { team1 := some "Poland", team2 := some "Brazil", date := some "June 2, 2025",
         time := none, round := some "Final", prediction_deadline := none }] [] =
      UploadResult.aborted := by decide

/-- C9 (amended): when every row carries the expected columns — in particular
a `time` key — a row whose date/time fields fail all parse attempts is skipped
with one reported error and the remaining rows still commit: the import
commits exactly the games of the same import run without the malformed rows.
When the `time` column is absent, a date parse failure instead raises an
uncaught `KeyError` that aborts the entire import. -/
theorem upload_games_row_skip (rows : List CsvRow) (existing : List GameRow)
    (hkeys : ∀ r ∈ rows, r.team1.isSome ∧ r.team2.isSome ∧ r.date.isSome ∧
      r.time.isSome ∧ r.round.isSome) :
    ∃ added, upload_games rows existing =
        .committed added ((rows.filter (fun r => isSkippedDate r)).length) ∧
      upload_games (rows.filter (fun r => !isSkippedDate r)) existing =
        .committed added 0 := by
  obtain ⟨l, hl1, hl2⟩ := importLoop_skips rows existing [] hkeys
  refine ⟨l, ?_, ?_⟩
  · unfold upload_games
    rw [hl1]
  · unfold upload_games
    rw [hl2]

/-- Witness for C9 (amended): a two-row CSV with a `time` column whose second
row has an unparseable date imports the first game and reports one skipped
row. -/
theorem upload_games_row_skip_witness :
    (∀ r ∈ [sampleCsvGood, sampleCsvBad], r.team1.isSome ∧ r.team2.isSome ∧
      r.date.isSome ∧ r.time.isSome ∧ r.round.isSome) ∧
    ∃ added, upload_games [sampleCsvGood, sampleCsvBad] [] =
        .committed added
          (([sampleCsvGood, sampleCsvBad].filter (fun r => isSkippedDate r)).length) ∧
      upload_games ([sampleCsvGood, sampleCsvBad].filter (fun r => !isSkippedDate r)) [] =
        .committed added 0 :=
  ⟨by decide, upload_games_row_skip [sampleCsvGood, sampleCsvBad] [] (by decide)⟩

/-! Invariance lemmas for the recalculation engine: everything the engine
reads from a prediction row other than `points` is untouched by its own
writes, so a second pass recomputes identical values. -/

theorem setPoints_game_id (p : PredRow) (v : Option Int) :
    ({ p with points := v } : PredRow).game_id = p.game_id := rfl

theorem setPoints_user_id (p : PredRow) (v : Option Int) :
    ({ p with points := v } : PredRow).user_id = p.user_id := rfl

theorem setPoints_is_default (p : PredRow) (v : Option Int) :
    ({ p with points := v } : PredRow).is_default_prediction = p.is_default_prediction := rfl

theorem setPoints_calculate (p : PredRow) (v : Option Int) (g : GameRow) :
    calculate_points { p with points := v } g = calculate_points p g := rfl

theorem setPoints_writeVal (g : GameRow) (d : Int) (p : PredRow) (v : Option Int) :
    writeVal g d { p with points := v } = writeVal g d p := rfl

theorem processGame_map_pointsOnly (g : GameRow) (d : Int) :
    ∀ p : PredRow, ∃ v, (if p.game_id == g.id then
      { p with points := writeVal g d p } else p) = { p with points := v } := by
  intro p
  by_cases hc : (p.game_id == g.id) = true
  · exact ⟨writeVal g d p, by rw [if_pos hc]⟩
  · exact ⟨p.points, by rw [if_neg hc]⟩

theorem gamePreds_map (g : GameRow) (f : PredRow → PredRow)
    (hf : ∀ p, ∃ v, f p = { p with points := v }) (preds : List PredRow) :
    gamePreds g (preds.map f) = (gamePreds g preds).map f := by
  unfold gamePreds
  rw [List.filter_map]
  congr 1
  refine List.filter_congr (fun p _ => ?_)
  obtain ⟨v, hv⟩ := hf p
  simp [Function.comp, hv]

theorem realPoints_map (g : GameRow) (f : PredRow → PredRow)
    (hf : ∀ p, ∃ v, f p = { p with points := v }) (preds : List PredRow) :
    realPoints g (preds.map f) = realPoints g preds := by
  unfold realPoints
  rw [gamePreds_map g f hf preds, List.filter_map, List.filterMap_map]
  have h1 : List.filter ((fun p : PredRow => !p.is_default_prediction) ∘ f)
      (gamePreds g preds) = List.filter (fun p => !p.is_default_prediction)
      (gamePreds g preds) := by
    refine List.filter_congr (fun p _ => ?_)
    obtain ⟨v, hv⟩ := hf p
    simp [Function.comp, hv, setPoints_is_default]
  rw [h1]
  refine List.filterMap_congr (fun p _ => ?_)
  obtain ⟨v, hv⟩ := hf p
  simp [Function.comp, hv, setPoints_calculate]

theorem realPoints_append_default (g : GameRow) (preds rows : List PredRow)
    (hrows : ∀ r ∈ rows, r.is_default_prediction = true) :
    realPoints g (preds ++ rows) = realPoints g preds := by
  unfold realPoints gamePreds
  rw [List.filter_append, List.filter_append, List.filterMap_append]
  have h1 : List.filter (fun p : PredRow => !p.is_default_prediction)
      (List.filter (fun p => p.game_id == g.id) rows) = [] := by
    rw [List.filter_eq_nil_iff]
    intro r hr
    rw [hrows r (List.mem_of_mem_filter hr)]
    simp
  rw [h1]
  simp

theorem default_points_map (n : Nat) (g : GameRow) (f : PredRow → PredRow)
    (hf : ∀ p, ∃ v, f p = { p with points := v }) (preds : List PredRow) :
    default_points_of n g (preds.map f) = default_points_of n g preds := by
  unfold default_points_of
  rw [realPoints_map g f hf preds]

theorem default_points_append_default (n : Nat) (g : GameRow)
    (preds rows : List PredRow) (hrows : ∀ r ∈ rows, r.is_default_prediction = true) :
    default_points_of n g (preds ++ rows) = default_points_of n g preds := by
  unfold default_points_of
  rw [realPoints_append_default g preds rows hrows]

theorem usersOf_map (g : GameRow) (f : PredRow → PredRow)
    (hf : ∀ p, ∃ v, f p = { p with points := v }) (preds : List PredRow) :
    (gamePreds g (preds.map f)).map (fun p => p.user_id) =
      (gamePreds g preds).map (fun p => p.user_id) := by
  rw [gamePreds_map g f hf preds, List.map_map]
  refine List.map_congr_left (fun p _ => ?_)
  obtain ⟨v, hv⟩ := hf p
  simp [Function.comp, hv, setPoints_user_id]

theorem processGame_of_settled (users : List Nat) (n : Nat) (g : GameRow)
    (preds : List PredRow) (hs : Settled users n g preds) :
    processGame users n g preds = (preds, 0, 0) := by
  obtain ⟨hpts, hcov⟩ := hs
  have hupd : preds.map (fun p => if p.game_id == g.id then
      { p with points := writeVal g (default_points_of n g preds) p } else p) = preds := by
    refine (List.map_congr_left (fun p hp => ?_)).trans (List.map_id preds)
    by_cases hc : (p.game_id == g.id) = true
    · rw [if_pos hc, ← hpts p hp (by simpa using hc)]
      rfl
    · rw [if_neg hc]
      rfl
  have hempty : users.filter (fun u =>
      !((gamePreds g preds).map (fun p => p.user_id)).contains u) = [] := by
    rw [List.filter_eq_nil_iff]
    intro u hu
    have hmem : ((gamePreds g preds).map (fun p => p.user_id)).contains u = true := by
      simpa [List.elem_iff] using hcov u hu
    show ¬(!((gamePreds g preds).map (fun p => p.user_id)).contains u) = true
    rw [hmem]
    decide
  have hcnt : (gamePreds g preds).filter (fun p =>
      p.points != writeVal g (default_points_of n g preds) p) = [] := by
    rw [List.filter_eq_nil_iff]
    intro p hp
    have hmem : p ∈ preds := List.mem_of_mem_filter hp
    have hgid : p.game_id = g.id := by
      have := (List.mem_filter.mp hp).2
      simpa using this
    rw [hpts p hmem hgid]
    simp
  simp only [processGame]
  rw [hcnt, hupd, hempty]
  simp

theorem processGame_settles (users : List Nat) (n : Nat) (g : GameRow)
    (preds : List PredRow) :
    Settled users n g (processGame users n g preds).1 := by
  have hf : ∀ p : PredRow, ∃ v, (fun p => if p.game_id == g.id then
      { p with points := writeVal g (default_points_of n g preds) p } else p) p =
      { p with points := v } := processGame_map_pointsOnly g (default_points_of n g preds)
  have hout : (processGame users n g preds).1 =
      preds.map (fun p => if p.game_id == g.id then
        { p with points := writeVal g (default_points_of n g preds) p } else p) ++
      (users.filter (fun u =>
        !((gamePreds g preds).map (fun p => p.user_id)).contains u)).map
        (fun u => defaultRow u g (default_points_of n g preds)) := rfl
  have hcreated_def : ∀ r ∈ (users.filter (fun u =>
      !((gamePreds g preds).map (fun p => p.user_id)).contains u)).map
      (fun u => defaultRow u g (default_points_of n g preds)),
      r.is_default_prediction = true := by
    intro r hr
    obtain ⟨u, _, hru⟩ := List.mem_map.mp hr
    rw [← hru]
    rfl
  have hD : default_points_of n g (processGame users n g preds).1 =
      default_points_of n g preds := by
    rw [hout, default_points_append_default n g _ _ hcreated_def,
      default_points_map n g _ hf preds]
  constructor
  · intro p hp hgid
    rw [hD]
    rw [hout] at hp
    rcases List.mem_append.mp hp with hp | hp
    · obtain ⟨q, hq, hqp⟩ := List.mem_map.mp hp
      by_cases hc : (q.game_id == g.id) = true
      · have hqp' : p = { q with points := writeVal g (default_points_of n g preds) q } := by
          rw [← hqp, if_pos hc]
        rw [hqp', setPoints_writeVal]
        rfl
      · have hpq : p = q := by
          rw [← hqp, if_neg hc]
        rw [hpq] at hgid
        exact absurd (by simpa using hgid) hc
    · obtain ⟨u, _, hru⟩ := List.mem_map.mp hp
      rw [← hru]
      rfl
  · intro u hu
    rw [hout]
    unfold gamePreds
    rw [List.filter_append, List.map_append]
    by_cases hmem : u ∈ (gamePreds g preds).map (fun p => p.user_id)
    · refine List.mem_append.mpr (Or.inl ?_)
      have husers := usersOf_map g _ hf preds
      unfold gamePreds at husers
      rw [husers]
      exact hmem
    · refine List.mem_append.mpr (Or.inr ?_)
      have hufil : u ∈ users.filter (fun u =>
          !((gamePreds g preds).map (fun p => p.user_id)).contains u) := by
        refine List.mem_filter.mpr ⟨hu, ?_⟩
        simpa [List.elem_iff] using hmem
      have hrow : defaultRow u g (default_points_of n g preds) ∈
          (users.filter (fun u =>
            !((gamePreds g preds).map (fun p => p.user_id)).contains u)).map
          (fun u => defaultRow u g (default_points_of n g preds)) :=
        List.mem_map_of_mem _ hufil
      have hfilt : defaultRow u g (default_points_of n g preds) ∈
          List.filter (fun p => p.game_id == g.id)
          ((users.filter (fun u =>
            !((gamePreds g preds).map (fun p => p.user_id)).contains u)).map
          (fun u => defaultRow u g (default_points_of n g preds))) :=
        List.mem_filter.mpr ⟨hrow, by simp [defaultRow]⟩
      exact List.mem_map.mpr ⟨_, hfilt, rfl⟩

theorem processGame_preserves_settled (users : List Nat) (n : Nat) (g g' : GameRow)
    (preds : List PredRow) (hne : g.id ≠ g'.id) (hs : Settled users n g preds) :
    Settled users n g (processGame users n g' preds).1 := by
  have hf : ∀ p : PredRow, ∃ v, (fun p => if p.game_id == g'.id then
      { p with points := writeVal g' (default_points_of n g' preds) p } else p) p =
      { p with points := v } := processGame_map_pointsOnly g' (default_points_of n g' preds)
  have hout : (processGame users n g' preds).1 =
      preds.map (fun p => if p.game_id == g'.id then
        { p with points := writeVal g' (default_points_of n g' preds) p } else p) ++
      (users.filter (fun u =>
        !((gamePreds g' preds).map (fun p => p.user_id)).contains u)).map
        (fun u => defaultRow u g' (default_points_of n g' preds)) := rfl
  have hcreated_def : ∀ r ∈ (users.filter (fun u =>
      !((gamePreds g' preds).map (fun p => p.user_id)).contains u)).map
      (fun u => defaultRow u g' (default_points_of n g' preds)),
      r.is_default_prediction = true := by
    intro r hr
    obtain ⟨u, _, hru⟩ := List.mem_map.mp hr
    rw [← hru]
    rfl
  have hD : default_points_of n g (processGame users n g' preds).1 =
      default_points_of n g preds := by
    rw [hout, default_points_append_default n g _ _ hcreated_def,
      default_points_map n g _ hf preds]
  constructor
  · intro p hp hgid
    rw [hD]
    rw [hout] at hp
    rcases List.mem_append.mp hp with hp | hp
    · obtain ⟨q, hq, hqp⟩ := List.mem_map.mp hp
      by_cases hc : (q.game_id == g'.id) = true
      · have hqp' : p = { q with points := writeVal g' (default_points_of n g' preds) q } := by
          rw [← hqp, if_pos hc]
        rw [hqp'] at hgid
        simp only [setPoints_game_id] at hgid
        exact absurd (((by simpa using hc : q.game_id = g'.id).symm).trans hgid) hne.symm
      · have hpq : p = q := by
          rw [← hqp, if_neg hc]
        rw [hpq]
        rw [hpq] at hgid
        exact hs.1 q hq hgid
    · obtain ⟨u, _, hru⟩ := List.mem_map.mp hp
      rw [← hru] at hgid
      simp only [defaultRow] at hgid
      exact absurd hgid.symm hne
  · intro u hu
    rw [hout]
    unfold gamePreds
    rw [List.filter_append, List.map_append]
    refine List.mem_append.mpr (Or.inl ?_)
    have husers := usersOf_map g _ hf preds
    unfold gamePreds at husers
    rw [husers]
    exact hs.2 u hu

theorem runRecalc_preserves_settled (users : List Nat) (n : Nat) (g : GameRow) :
    ∀ (gs : List GameRow) (preds : List PredRow), (∀ g' ∈ gs, g.id ≠ g'.id) →
    Settled users n g preds → Settled users n g (runRecalc users n gs preds).1 := by
  intro gs
  induction gs with
  | nil => exact fun preds _ hs => hs
  | cons g0 gs ih =>
    intro preds hne hs
    exact ih (processGame users n g0 preds).1
      (fun g' hg' => hne g' (by simp [hg']))
      (processGame_preserves_settled users n g g0 preds (hne g0 (by simp)) hs)

theorem runRecalc_settles (users : List Nat) (n : Nat) :
    ∀ (gs : List GameRow), ((gs.map (fun g => g.id)).Nodup) →
    ∀ (preds : List PredRow), ∀ g ∈ gs, Settled users n g (runRecalc users n gs preds).1 := by
  intro gs
  induction gs with
  | nil =>
    intro _ preds g hg
    simp at hg
  | cons g0 gs ih =>
    intro hnodup preds g hg
    simp only [List.map_cons, List.nodup_cons] at hnodup
    rcases List.mem_cons.mp hg with hg | hg
    · subst hg
      have hne : ∀ g' ∈ gs, g.id ≠ g'.id := fun g' hg' hc =>
        hnodup.1 (hc ▸ List.mem_map_of_mem _ hg')
      exact runRecalc_preserves_settled users n g gs (processGame users n g preds).1 hne
        (processGame_settles users n g preds)
    · exact ih hnodup.2 (processGame users n g0 preds).1 g hg

theorem runRecalc_of_settled (users : List Nat) (n : Nat) :
    ∀ (gs : List GameRow) (preds : List PredRow),
    (∀ g ∈ gs, Settled users n g preds) → runRecalc users n gs preds = (preds, 0, 0) := by
  intro gs
  induction gs with
  | nil => exact fun preds _ => rfl
  | cons g0 gs ih =>
    intro preds hall
    have h0 : processGame users n g0 preds = (preds, 0, 0) :=
      processGame_of_settled users n g0 preds (hall g0 (by simp))
    unfold runRecalc
    rw [h0]
    show ((runRecalc users n gs preds).1, 0 + (runRecalc users n gs preds).2.1,
      0 + (runRecalc users n gs preds).2.2) = (preds, 0, 0)
    rw [ih preds (fun g hg => hall g (by simp [hg]))]
    rfl

theorem recalc_success_eq (st : DBState) (n : Nat)
    (h1 : ¬(finishedGames st).isEmpty = true) (h2 : ¬st.users.isEmpty = true) :
    recalculate_all_points_with_defaults st n =
      (.success {
        games_processed := (finishedGames st).length
        predictions_created := (runRecalc st.users n (finishedGames st) st.predictions).2.1
        points_updated := (runRecalc st.users n (finishedGames st) st.predictions).2.2
        n_position := n },
      { st with predictions := (runRecalc st.users n (finishedGames st) st.predictions).1 }) := by
  unfold recalculate_all_points_with_defaults
  rw [if_neg h1, if_neg h2]

/-- C5: for any database state whose games have distinct ids and any policy
parameter N ≥ 1, running the recalculation engine twice in succession with
the same N leaves exactly the state one run produces (every prediction row's
points included), and the second run creates zero placeholder predictions. -/
theorem recalculation_idempotent (st : DBState) (n : Nat) (_hn : 1 ≤ n)
    (hids : (st.games.map (fun g => g.id)).Nodup) :
    (recalculate_all_points_with_defaults
        (recalculate_all_points_with_defaults st n).2 n).2 =
      (recalculate_all_points_with_defaults st n).2 ∧
    ((recalculate_all_points_with_defaults
        (recalculate_all_points_with_defaults st n).2 n).1).createdCount = 0 := by
  by_cases h1 : (finishedGames st).isEmpty = true
  · have hfix : recalculate_all_points_with_defaults st n =
        (.failure "No finished games found", st) := by
      unfold recalculate_all_points_with_defaults
      rw [if_pos h1]
    rw [hfix]
    show ((recalculate_all_points_with_defaults st n).2 = st ∧ _)
    rw [hfix]
    exact ⟨rfl, rfl⟩
  · by_cases h2 : st.users.isEmpty = true
    · have hfix : recalculate_all_points_with_defaults st n =
          (.failure "No users found", st) := by
        unfold recalculate_all_points_with_defaults
        rw [if_neg h1, if_pos h2]
      rw [hfix]
      show ((recalculate_all_points_with_defaults st n).2 = st ∧ _)
      rw [hfix]
      exact ⟨rfl, rfl⟩
    · have hsub : (finishedGames st).Sublist st.games := List.filter_sublist _
      have hnodup_fg : ((finishedGames st).map (fun g => g.id)).Nodup :=
        List.Nodup.sublist (hsub.map (fun g => g.id)) hids
      have happ1 := recalc_success_eq st n h1 h2
      have h1' : ¬(finishedGames { st with predictions :=
          (runRecalc st.users n (finishedGames st) st.predictions).1 }).isEmpty = true := h1
      have h2' : ¬({ st with predictions :=
          (runRecalc st.users n (finishedGames st) st.predictions).1 } : DBState).users.isEmpty
          = true := h2
      have happ2 := recalc_success_eq { st with predictions :=
        (runRecalc st.users n (finishedGames st) st.predictions).1 } n h1' h2'
      have hsettled : ∀ g ∈ finishedGames st, Settled st.users n g
          (runRecalc st.users n (finishedGames st) st.predictions).1 :=
        fun g hg => runRecalc_settles st.users n (finishedGames st) hnodup_fg st.predictions g hg
      have hbody : runRecalc ({ st with predictions :=
            (runRecalc st.users n (finishedGames st) st.predictions).1 } : DBState).users n
          (finishedGames { st with predictions :=
            (runRecalc st.users n (finishedGames st) st.predictions).1 })
          ({ st with predictions :=
            (runRecalc st.users n (finishedGames st) st.predictions).1 } : DBState).predictions =
          ((runRecalc st.users n (finishedGames st) st.predictions).1, 0, 0) :=
        runRecalc_of_settled st.users n (finishedGames st)
          (runRecalc st.users n (finishedGames st) st.predictions).1 hsettled
      rw [happ1]
      show ((recalculate_all_points_with_defaults { st with predictions :=
          (runRecalc st.users n (finishedGames st) st.predictions).1 } n).2 = _ ∧ _)
      rw [happ2, hbody]
      exact ⟨rfl, rfl⟩

/-- Witness for C5: one user, one finished game, no predictions; the first run
creates the single placeholder, and the second run changes nothing and
creates none. -/
theorem recalculation_idempotent_witness :
    (recalculate_all_points_with_defaults
        (recalculate_all_points_with_defaults
          { users := [1], games := [sampleFinishedGame1], predictions := [] } 1).2 1).2 =
      (recalculate_all_points_with_defaults
        { users := [1], games := [sampleFinishedGame1], predictions := [] } 1).2 ∧
    ((recalculate_all_points_with_defaults
        (recalculate_all_points_with_defaults
          { users := [1], games := [sampleFinishedGame1], predictions := [] } 1).2 1).1).createdCount
      = 0 :=
  recalculation_idempotent
    { users := [1], games := [sampleFinishedGame1], predictions := [] } 1
    (by decide) (by decide)

end VPG
